import Mathlib

/-!
Verification development for the `tinytuya` contrib module `BreakerDevice`
(`tinytuya/Contrib/BreakerDevice.py`).

The Python module maintains an in-memory model of a Tuya smart breaker:
a scalar data-point registry (`BreakerDevice.dps_data`), packed binary
sensor groups (`BreakerSensorPhase`, `BreakerAlarmSet`), a polymorphic
sensor-value model (`BreakerSensorFloatValue` / `...IntValue` /
`...StringValue` / `BreakerAlarmValue`), inbound payload application
(`BreakerDevice._inspect_data`) and outbound encoding
(`BreakerDevice.parseValue` / `setValue`).

Numbers are embedded as rationals: every arithmetic operation performed by
the module (integer division by a scale factor, multiplication by a scale
factor followed by `int(...)` truncation, `round(x, 3)`, `"%.0f"` / `"%.3f"`
formatting) is exact on the rational representatives of the values involved,
so the rational model agrees with Python float semantics on the modelled
domain.  The arithmetic is routed through explicit `mkRat`-based operations
(`qMul`, `qDiv`, `qSub`, ...) that evaluate by kernel reduction; they are
proved equal to the `ℚ` field operations below and are interchangeable with
them in all statements.  Byte strings are embedded as `List Nat` (each
element a byte value); base64-encoded string payloads are modelled as
carrying the bytes they decode to.
-/

/-! ## Exact rational arithmetic -/

/-- Rational multiplication (equal to `a * b`, see `qMul_eq`). -/
def qMul (a b : ℚ) : ℚ := mkRat (a.num * b.num) (a.den * b.den)

/-- Rational division (equal to `a / b`, see `qDiv_eq`). -/
def qDiv (a b : ℚ) : ℚ :=
  if b.num < 0 then mkRat (-(a.num * (b.den : Int))) (a.den * b.num.natAbs)
  else mkRat (a.num * (b.den : Int)) (a.den * b.num.natAbs)

/-- Rational subtraction (equal to `a - b`, see `qSub_eq`). -/
def qSub (a b : ℚ) : ℚ :=
  mkRat (a.num * (b.den : Int) - b.num * (a.den : Int)) (a.den * b.den)

/-- Floor of a rational (equal to `⌊q⌋`, see `qFloor_eq`). -/
def qFloor (q : ℚ) : Int := q.num.fdiv (q.den : Int)

/-- Ceiling of a rational (equal to `⌈q⌉`, see `qCeil_eq`). -/
def qCeil (q : ℚ) : Int := -((-q.num).fdiv (q.den : Int))

/-- Python `int(x)` on a number: truncation toward zero. -/
def truncQ (q : ℚ) : Int :=
  if 0 ≤ q.num then qFloor q else qCeil q

/-- Banker's rounding to an integer, as used by Python `round` and
`"%.nf"` string formatting. -/
def roundHalfEven (q : ℚ) : Int :=
  let f := qFloor q
  let r := qSub q ((f : ℚ))
  if r < mkRat 1 2 then f
  else if mkRat 1 2 < r then f + 1
  else if f % 2 = 0 then f else f + 1

/-- Python `round(x, 3)`. -/
def roundTo3 (q : ℚ) : ℚ :=
  qDiv ((roundHalfEven (qMul 1000 q) : Int) : ℚ) 1000

/-- Helper for fixed-width decimal rendering: pad a 3-digit fraction. -/
def pad3 (n : Nat) : String :=
  if n < 10 then "00" ++ toString n
  else if n < 100 then "0" ++ toString n
  else toString n

/-- Python `f"{x:.0f}"`. -/
def fmt0 (q : ℚ) : String :=
  toString (roundHalfEven q)

/-- Python `f"{x:.3f}"`. -/
def fmt3 (q : ℚ) : String :=
  let m := roundHalfEven (qMul 1000 q)
  let sign := if m < 0 then "-" else ""
  let n := m.natAbs
  sign ++ toString (n / 1000) ++ "." ++ pad3 (n % 1000)

/-- Python `str` of a `bool`. -/
def pyBoolStr (b : Bool) : String :=
  if b then "True" else "False"

/-! ## The sensor-value model

Python dispatches on the runtime type of the decoded value
(`BreakerSensorBase._insert_or_update_value`) to build one of
`BreakerSensorFloatValue`, `BreakerSensorIntValue`,
`BreakerSensorStringValue`, or to take a `BreakerAlarmValue` as-is.
We embed all four classes as one structure: `kind` records the class,
and each instance attribute that any of the classes carries is an
`Option` field (`none` = the Python object has no such attribute in its
`__dict__`; the `parent_device` / `parent_sensor` back-references carry
no decoded information and are omitted). -/

inductive SVKind
  | floatK
  | intK
  | strK
  | alarmK
deriving DecidableEq, Repr

inductive SVal
  | f (q : ℚ)
  | i (n : Int)
  | s (st : String)
deriving DecidableEq, Repr

structure SensorValue where
  kind : SVKind
  name : String
  value : Option SVal := Option.none
  threshold : Option ℚ := Option.none
  switch_alarm : Option Bool := Option.none
  unit : Option String := Option.none
deriving DecidableEq, Repr

/-- `BreakerSensorFloatValue.__init__`: `self.value = round(float(value), 3)`. -/
def mkFloat (name : String) (q : ℚ) : SensorValue :=
  { kind := SVKind.floatK, name := name, value := some (SVal.f (roundTo3 q)) }

/-- `BreakerSensorIntValue.__init__`. -/
def mkInt (name : String) (n : Int) : SensorValue :=
  { kind := SVKind.intK, name := name, value := some (SVal.i n) }

/-- `BreakerSensorStringValue.__init__`. -/
def mkStr (name : String) (st : String) : SensorValue :=
  { kind := SVKind.strK, name := name, value := some (SVal.s st) }

/-- `BreakerAlarmValue.__init__`: `self.threshold = round(float(threshold), 3)`. -/
def mkAlarm (name : String) (threshold : ℚ) (sa : Bool) (unit : String) : SensorValue :=
  { kind := SVKind.alarmK, name := name, threshold := some (roundTo3 threshold),
    switch_alarm := some sa, unit := some unit }

/-- The `__str__` methods of the four sensor-value classes.  The rendered
string is what `_insert_or_update_value` compares for change detection. -/
def strOfSensorValue (v : SensorValue) : String :=
  match v.kind with
  | SVKind.floatK =>
      v.name ++ "=" ++ (match v.value with | some (SVal.f q) => fmt3 q | _ => "")
  | SVKind.intK =>
      v.name ++ "=" ++ (match v.value with | some (SVal.i n) => toString n | _ => "")
  | SVKind.strK =>
      v.name ++ "=" ++ (match v.value with | some (SVal.s st) => st | _ => "")
  | SVKind.alarmK =>
      v.name ++ " threshold=" ++ fmt0 (v.threshold.getD 0) ++ v.unit.getD "" ++
        ", switch_alarm=" ++ pyBoolStr (v.switch_alarm.getD false)

/-- The attribute-copy loop of `_insert_or_update_value`: every attribute in
`["value", "name", "switch_alarm", "unit", "threshold"]` present on the fresh
object `nv` is copied onto the stored object `s`; the stored object keeps its
class (`kind`) and any attribute `nv` lacks.  (The preceding raw assignment
`s.value = value` is overwritten by this loop for float/int/string values and,
for alarm values - whose `__dict__` has no `value` entry - leaves an attribute
that no `BreakerAlarmValue` method ever reads, so it is dropped here.) -/
def copyAttrs (s nv : SensorValue) : SensorValue :=
  { s with
    name := nv.name,
    value := if nv.value.isSome then nv.value else s.value,
    threshold := if nv.threshold.isSome then nv.threshold else s.threshold,
    switch_alarm := if nv.switch_alarm.isSome then nv.switch_alarm else s.switch_alarm,
    unit := if nv.unit.isSome then nv.unit else s.unit }

/-- The scan over `self.sensors` inside `_insert_or_update_value`.  Python
iterates over the stored list, and on each name match recomputes `changed`,
copies the attributes in place, and rebinds `nv` to the stored object. -/
def insertLoop (n : String) :
    List SensorValue → SensorValue → Bool → Bool →
      List SensorValue × Bool × Bool × SensorValue
  | [], nv, is_new, changed => ([], is_new, changed, nv)
  | s :: rest, nv, is_new, changed =>
    if s.name = n then
      let ch := strOfSensorValue s != strOfSensorValue nv
      let s2 := copyAttrs s nv
      let r := insertLoop n rest s2 false ch
      (s2 :: r.1, r.2)
    else
      let r := insertLoop n rest nv is_new changed
      (s :: r.1, r.2)

/-- `BreakerSensorBase._insert_or_update_value`, after the incoming raw value
has been dispatched to a `SensorValue` (`nv`).  Returns the updated sensor
list and the Python results `(is_new, changed, nv)`. -/
def insertOrUpdateValue (sensors : List SensorValue) (n : String) (nv : SensorValue) :
    List SensorValue × Bool × Bool × SensorValue :=
  let r := insertLoop n sensors nv true true
  if r.2.1 then (r.1 ++ [r.2.2.2], r.2) else r

/-! ## Sensor groups

`BreakerSensorPhase` (dps "6") and `BreakerAlarmSet` (dps "17" / "18") share
the base-class state: a group name, the dps id, the stored sensor list, the
raw `last_state` bytes and the last update timestamp.  Their `update`
methods mutate the object and either return the list of changed values,
return `None` (Python bare `return`, on empty input) or raise `TypeError`;
we model them as functions returning the mutated group together with
`Except String (Option (List SensorValue))` (`.ok none` = returned `None`,
`.error` = raised; on `.error` the returned group carries the mutations
performed before the raise, as the Python object does). -/

structure SensorGroup where
  name : String
  dps : String
  sensors : List SensorValue
  last_state : List Nat
  timestamp : Int
deriving DecidableEq, Repr

/-- `BreakerAlarmValue.ParseFromBytes` on one 4-byte record
(`data.getD` is only reached with indices 0-3 of a 4-byte chunk). -/
def parseAlarmFromBytes (dps : String) (data : List Nat) : Except String SensorValue :=
  let b_type := data.getD 0 0
  let switch_alarm := data.getD 1 0 == 1
  let raw2 := 256 * data.getD 2 0 + data.getD 3 0
  if dps = "17" then
    if b_type = 4 then Except.ok (mkAlarm "leakage" (qDiv ((raw2 : ℚ)) 1) switch_alarm "mA")
    else if b_type = 5 then
      Except.ok (mkAlarm "high_temperature" (qDiv ((raw2 : ℚ)) 1) switch_alarm "C")
    else Except.error "Unhandled Breaker alert data type"
  else if dps = "18" then
    if b_type = 1 then Except.ok (mkAlarm "over_current" (qDiv ((raw2 : ℚ)) 10) switch_alarm "A")
    else if b_type = 3 then
      Except.ok (mkAlarm "overvoltage" (qDiv ((raw2 : ℚ)) 1) switch_alarm "V")
    else if b_type = 4 then
      Except.ok (mkAlarm "under voltage" (qDiv ((raw2 : ℚ)) 1) switch_alarm "V")
    else Except.error "Unhandled Breaker alert data type"
  else Except.error "Unhandled Breaker alert data type"

/-- The record loop of `BreakerAlarmSet.update` (`for i in range(0, len, 4)`).
Returns the sensor list as mutated so far, and either the accumulated changed
list or the raised error.  The final catch-all branch is unreachable: the
caller has checked `len(sensordata) % 4 == 0`. -/
def alarmLoop (dps : String) :
    List SensorValue → List Nat → List SensorValue × Except String (List SensorValue)
  | sensors, [] => (sensors, Except.ok [])
  | sensors, b0 :: b1 :: b2 :: b3 :: rest =>
    match parseAlarmFromBytes dps [b0, b1, b2, b3] with
    | Except.error e => (sensors, Except.error e)
    | Except.ok nv =>
      let r := insertOrUpdateValue sensors nv.name nv
      let rec2 := alarmLoop dps r.1 rest
      (rec2.1, rec2.2.map (fun ch => (if r.2.2.1 then [r.2.2.2] else []) ++ ch))
  | sensors, _ => (sensors, Except.error "IndexError")

/-- `BreakerAlarmSet.update`.  `timestamp` is set first; empty input clears
the sensor list and does a bare `return` (`.ok none`); a length that is not
a multiple of 4 raises; otherwise `last_state` is overwritten and the record
loop runs. -/
def alarmUpdate (g : SensorGroup) (ts : Int) (data : List Nat) :
    SensorGroup × Except String (Option (List SensorValue)) :=
  let g1 := { g with timestamp := ts }
  if data.length < 1 then ({ g1 with sensors := [] }, Except.ok Option.none)
  else if data.length % 4 ≠ 0 then
    (g1, Except.error "Unhandled Breaker Sensor Phase data length")
  else
    let g2 := { g1 with last_state := data }
    let r := alarmLoop g.dps g2.sensors data
    ({ g2 with sensors := r.1 }, r.2.map some)

/-- Big-endian `struct.unpack('>H', ...)` of two bytes. -/
def be16 (a b : Nat) : Nat := 256 * a + b

/-- Big-endian `int.from_bytes` of three bytes. -/
def be24 (a b c : Nat) : Nat := 65536 * a + 256 * b + c

/-- `BreakerSensorPhase.update`.  Same empty/length-check prologue as the
alarm variant (stride 8); then bytes 0-1, 2-4 and 5-7 of the input are
decoded into the three named float readings.  Note the source reads only
those eight bytes, regardless of how many 8-byte records the input holds
(`data.getD` is only reached with indices 0-7, valid since `len ≥ 8`). -/
def phaseUpdate (g : SensorGroup) (ts : Int) (data : List Nat) :
    SensorGroup × Except String (Option (List SensorValue)) :=
  let g1 := { g with timestamp := ts }
  if data.length < 1 then ({ g1 with sensors := [] }, Except.ok Option.none)
  else if data.length % 8 ≠ 0 then
    (g1, Except.error "Unhandled Breaker Sensor Phase data length")
  else
    let g2 := { g1 with last_state := data }
    let v : ℚ := qDiv ((be16 (data.getD 0 0) (data.getD 1 0) : ℚ)) 10
    let r1 := insertOrUpdateValue g2.sensors "voltage" (mkFloat "voltage" v)
    let a : ℚ := qDiv ((be24 (data.getD 2 0) (data.getD 3 0) (data.getD 4 0) : ℚ)) 1000
    let r2 := insertOrUpdateValue r1.1 "current_a" (mkFloat "current_a" a)
    let p : ℚ := qDiv ((be24 (data.getD 5 0) (data.getD 6 0) (data.getD 7 0) : ℚ)) 1000
    let r3 := insertOrUpdateValue r2.1 "power_kw" (mkFloat "power_kw" p)
    ({ g2 with sensors := r3.1 },
      Except.ok (some ((if r1.2.2.1 then [r1.2.2.2] else []) ++
        ((if r2.2.2.1 then [r2.2.2.2] else []) ++
          (if r3.2.2.1 then [r3.2.2.2] else [])))))

/-- The groups as built by `BreakerDevice.__init__` /
`BreakerSensorPhase.__init__` / `BreakerAlarmSet.__init__`. -/
def freshPhase : SensorGroup :=
  { name := "phase_a", dps := "6", sensors := [], last_state := [], timestamp := 0 }

def freshAlarm1 : SensorGroup :=
  { name := "alarm_set_1", dps := "17", sensors := [], last_state := [], timestamp := 0 }

def freshAlarm2 : SensorGroup :=
  { name := "alarm_set_2", dps := "18", sensors := [], last_state := [], timestamp := 0 }

/-- The 4-byte records of an alarm payload, in order. -/
def records4 : List Nat → List (List Nat)
  | b0 :: b1 :: b2 :: b3 :: rest => [b0, b1, b2, b3] :: records4 rest
  | _ => []

/-- The alarm names an alarm payload decodes to (unparsable records skipped). -/
def alarmRecordNames (dps : String) (data : List Nat) : List String :=
  (records4 data).filterMap (fun c =>
    match parseAlarmFromBytes dps c with
    | Except.ok nv => some nv.name
    | Except.error _ => Option.none)

/-- Does some record of the payload fail to parse for this group? -/
def hasBadRecord (dps : String) (data : List Nat) : Bool :=
  (records4 data).any (fun c =>
    match parseAlarmFromBytes dps c with
    | Except.error _ => true
    | Except.ok _ => false)

/-- Result projection used in theorem statements (keeps them decidable). -/
def updOk (r : Except String (Option (List SensorValue))) :
    Option (Option (List SensorValue)) :=
  match r with
  | Except.ok v => some v
  | Except.error _ => Option.none

/-! ## Scalar data points and the device state

`BreakerDevice.dps_data` is a static table mapping data-point ids to a
semantic name plus decode information.  The entries of this particular
table use only the `name`, `scale`, `decode` and `enum` keys; the lookup
code also consults optional `alt` and `high_resolution` keys, modelled as
`Option` fields that are `none` throughout the table.  Payload values are
embedded as `PyObj` (the JSON primitives the protocol delivers plus Python
`None` for a never-assigned attribute). -/

inductive PyObj
  | none
  | i (n : Int)
  | q (r : ℚ)
  | b (bv : Bool)
  | s (st : String)
deriving DecidableEq, Repr

inductive DecKind
  | toBool
  | toInt
deriving DecidableEq, Repr

structure FieldData where
  name : String
  alt : Option String := Option.none
  scale : Option Int := Option.none
  decode : Option DecKind := Option.none
  enum : Option (List String) := Option.none
  high_resolution : Option Bool := Option.none
deriving DecidableEq, Repr

/-- `BreakerDevice.dps_data`, in source order. -/
def dps_data : List (String × FieldData) := [
  ("1", { name := "total_forward_energy", scale := some 100 }),
  ("16", { name := "switch", decode := some DecKind.toBool }),
  ("11", { name := "switch_prepayment", decode := some DecKind.toBool }),
  ("14", { name := "charge_energy", scale := some 100 }),
  ("13", { name := "balance_energy", scale := some 100 }),
  ("103", { name := "temp_current", decode := some DecKind.toInt }),
  ("104", { name := "reclosing_enabled", decode := some DecKind.toBool }),
  ("102", { name := "reclosing_allowed_times", decode := some DecKind.toInt }),
  ("107", { name := "reclose_recover", decode := some DecKind.toInt }),
  ("134", { name := "relay_power_on_status", enum := some ["0", "1", "2"] })]

/-- First-match association lookup (Python `dict` access / the scans over
the static table). -/
def assocLookup {α : Type} : List (String × α) → String → Option α
  | [], _ => Option.none
  | (a, b) :: r, k => if a = k then some b else assocLookup r k

/-- Python `dict` assignment: update the existing key in place, else append. -/
def assocSet {α : Type} : List (String × α) → String → α → List (String × α)
  | [], k, v => [(k, v)]
  | (a, b) :: r, k, v => if a = k then (k, v) :: r else (a, b) :: assocSet r k v

/-- `check_raw` as computed in `BreakerDevice.__init__` for this table:
set when the entry has a `scale`, `base64`, `selfclass` or `decode` key
(this table has no `base64`/`selfclass` entries). -/
def checkRawFd (fd : FieldData) : Bool :=
  fd.scale.isSome || fd.decode.isSome

/-- The attribute `_inspect_data` compares and stores the raw value under. -/
def checknameFd (fd : FieldData) : String :=
  if checkRawFd fd then "raw_" ++ fd.name else fd.name

/-- Numeric view of a Python object (`bool` is an `int` in Python). -/
def toNumQ : PyObj → Option ℚ
  | PyObj.i n => some ((n : ℚ))
  | PyObj.q r => some r
  | PyObj.b bv => some (if bv then 1 else 0)
  | _ => Option.none

/-- Python `==` on the values this module stores and receives
(cross-type numeric equality; `None` equal only to `None`). -/
def pyEq (a b : PyObj) : Bool :=
  match toNumQ a, toNumQ b with
  | some x, some y => x == y
  | _, _ =>
    match a, b with
    | PyObj.s x, PyObj.s y => x == y
    | PyObj.none, PyObj.none => true
    | _, _ => false

/-- Python `bool(x)`. -/
def pyBoolOf : PyObj → Bool
  | PyObj.none => false
  | PyObj.i n => n ≠ 0
  | PyObj.q r => r ≠ 0
  | PyObj.b bv => bv
  | PyObj.s st => st ≠ ""

/-- Python `int(x)` (string parsing as core `String.toInt?`; a failure is
Python's `ValueError`). -/
def pyIntOf : PyObj → Except String Int
  | PyObj.i n => Except.ok n
  | PyObj.b bv => Except.ok (if bv then 1 else 0)
  | PyObj.q r => Except.ok (truncQ r)
  | PyObj.s st =>
    match st.toInt? with
    | some n => Except.ok n
    | _ => Except.error "ValueError: invalid literal for int"
  | PyObj.none => Except.error "TypeError: int() argument"

/-- The `decode` step of `_inspect_data` (`val = ddata['decode'](val)`). -/
def applyDecodeKind : Option DecKind → PyObj → Except String PyObj
  | Option.none, o => Except.ok o
  | some DecKind.toBool, o => Except.ok (PyObj.b (pyBoolOf o))
  | some DecKind.toInt, o => (pyIntOf o).map PyObj.i

/-- The `scale` step of `_inspect_data` (`val /= ddata['scale']`; Python
`/` on numbers yields a float, modelled as the exact rational). -/
def applyScale : Option Int → PyObj → Except String PyObj
  | Option.none, o => Except.ok o
  | some sc, PyObj.i n => Except.ok (PyObj.q (qDiv ((n : ℚ)) ((sc : ℚ))))
  | some sc, PyObj.q r => Except.ok (PyObj.q (qDiv r ((sc : ℚ))))
  | some sc, PyObj.b bv => Except.ok (PyObj.q (qDiv (if bv then 1 else 0) ((sc : ℚ))))
  | some _, _ => Except.error "TypeError: unsupported operand type for division"

/-- A data-point value as delivered to `_inspect_data`: a JSON primitive, or
the payload of a sensor group (a base64 string, modelled by the bytes it
decodes to, which is what `update` turns it into before use). -/
inductive DpVal
  | raw (o : PyObj)
  | bin (bs : List Nat)
deriving DecidableEq, Repr

/-- Per-entry body of the second loop of `_inspect_data`, for a data point
`k` present in `dps_data`.  Returns the updated attribute map and the names
appended to `data['changed']`.  The `enum` check only logs a warning; this
table has no `base64`, `selfclass` or `alt` entries.  A raw byte value for a
scalar data point never occurs over the JSON transport and is modelled as a
`TypeError`. -/
def processScalar (attrs : String → PyObj) (fd : FieldData) (v : DpVal) :
    Except String ((String → PyObj) × List String) :=
  match v with
  | DpVal.bin _ => Except.error "TypeError: unsupported payload type"
  | DpVal.raw o =>
    if pyEq (attrs (checknameFd fd)) o then Except.ok (attrs, [])
    else
      let ch := [fd.name] ++ (if fd.name ≠ checknameFd fd then [checknameFd fd] else [])
      let attrs1 := fun x => if x = checknameFd fd then o else attrs x
      match applyDecodeKind fd.decode o with
      | Except.error e => Except.error e
      | Except.ok o2 =>
        match applyScale fd.scale o2 with
        | Except.error e => Except.error e
        | Except.ok o3 =>
          Except.ok ((fun x => if x = fd.name then o3 else attrs1 x), ch)

/-- The second loop of `_inspect_data` (`for k in data['dps']`), folding
`processScalar` over the payload entries in order; data points absent from
`dps_data` are passed through untouched. -/
def applyScalars (attrs : String → PyObj) :
    List (String × DpVal) → Except String ((String → PyObj) × List String)
  | [] => Except.ok (attrs, [])
  | (k, v) :: rest =>
    match assocLookup dps_data k with
    | Option.none => applyScalars attrs rest
    | some fd =>
      match processScalar attrs fd v with
      | Except.error e => Except.error e
      | Except.ok (attrs2, ch) =>
        match applyScalars attrs2 rest with
        | Except.error e => Except.error e
        | Except.ok (attrs3, chrest) => Except.ok (attrs3, ch ++ chrest)

/-- One step of the first loop of `_inspect_data`: if the sensor data point
is present, dispatch it to the group's `update` and collect the changed
values (`data['changed_sensors'] += ...`).  `update` returning `None` (its
empty-input path) makes that `+=` raise a `TypeError`; a value that is
neither a base64 string nor bytes raises inside `update`. -/
def applySensorDp
    (upd : SensorGroup → Int → List Nat → SensorGroup × Except String (Option (List SensorValue)))
    (g : SensorGroup) (ts : Int) (v : Option DpVal) :
    Except String (SensorGroup × List SensorValue) :=
  match v with
  | Option.none => Except.ok (g, [])
  | some (DpVal.bin bs) =>
    let r := upd g ts bs
    match r.2 with
    | Except.error e => Except.error e
    | Except.ok Option.none =>
      Except.error "TypeError: unsupported operand types for +=: list and NoneType"
    | Except.ok (some ch) => Except.ok (r.1, ch)
  | some (DpVal.raw _) => Except.error "TypeError: Unhandled Breaker Sensor List data type"

/-- The inbound-facing state of a `BreakerDevice`: the dynamically-assigned
scalar attributes (semantic names plus their `raw_` shadow attributes, all
initialised to `None` by `__init__`) and the three sensor groups, in
`sensor_dps` order ("6", "17", "18"). -/
structure DeviceState where
  attrs : String → PyObj
  phase : SensorGroup
  alarm1 : SensorGroup
  alarm2 : SensorGroup

def freshDevice : DeviceState :=
  { attrs := fun _ => PyObj.none, phase := freshPhase,
    alarm1 := freshAlarm1, alarm2 := freshAlarm2 }

/-- `BreakerDevice._inspect_data` on a payload carrying a `dps` map (and an
optional event timestamp `t`; `now` stands for `time.time()` used when `t`
is absent).  Returns the mutated device together with the `changed` and
`changed_sensors` annotations. -/
def inspectData (st : DeviceState) (now : Int) (t : Option Int)
    (dps : List (String × DpVal)) :
    Except String (DeviceState × List String × List SensorValue) :=
  let ts := t.getD now
  match applySensorDp phaseUpdate st.phase ts (assocLookup dps "6") with
  | Except.error e => Except.error e
  | Except.ok (ph, cs1) =>
    match applySensorDp alarmUpdate st.alarm1 ts (assocLookup dps "17") with
    | Except.error e => Except.error e
    | Except.ok (a1, cs2) =>
      match applySensorDp alarmUpdate st.alarm2 ts (assocLookup dps "18") with
      | Except.error e => Except.error e
      | Except.ok (a2, cs3) =>
        match applyScalars st.attrs dps with
        | Except.error e => Except.error e
        | Except.ok (attrs2, ch) =>
          Except.ok ({ st with attrs := attrs2, phase := ph, alarm1 := a1, alarm2 := a2 },
            ch, cs1 ++ (cs2 ++ cs3))

/-! Projections of an `inspectData` result, used to keep concrete theorem
statements decidable (the attribute map is function-valued). -/

def inspectChanged (r : Except String (DeviceState × List String × List SensorValue)) :
    Option (List String) :=
  match r with
  | Except.ok (_, c, _) => some c
  | Except.error _ => Option.none

def inspectSensors (r : Except String (DeviceState × List String × List SensorValue)) :
    Option (List SensorValue) :=
  match r with
  | Except.ok (_, _, s) => some s
  | Except.error _ => Option.none

def inspectAttr (r : Except String (DeviceState × List String × List SensorValue))
    (name : String) : Option PyObj :=
  match r with
  | Except.ok (st, _, _) => some (st.attrs name)
  | Except.error _ => Option.none

def inspectIsError (r : Except String (DeviceState × List String × List SensorValue)) : Bool :=
  match r with
  | Except.ok _ => false
  | Except.error _ => true

/-- The `changed_sensors` of a second application of the same payload to a
fresh device (used to state determinism/idempotence claims). -/
def secondSensors (now : Int) (t : Option Int) (dps : List (String × DpVal)) :
    Option (List SensorValue) :=
  match inspectData freshDevice now t dps with
  | Except.ok (st1, _, _) => inspectSensors (inspectData st1 now t dps)
  | Except.error _ => Option.none

/-! ## Outbound encoding

`setValue` / `setValues` / `parseValue` build outbound payloads from semantic
field names.  The state they touch (`high_resolution`, `delay_updates`,
`delayed_updates`) is disjoint from the inbound state above; we model it
separately. -/

structure OutState where
  high_resolution : Option Bool
  delay_updates : Bool
  delayed_updates : List (String × PyObj)
deriving Repr

/-- The lookup loop of `parseValue`: first table entry whose `name` (or
`alt`, when present) matches the key and whose `high_resolution` marker,
when present, equals the device's flag. -/
def resolveFieldIn (hr : Option Bool) (key : String) :
    List (String × FieldData) → Option (String × FieldData)
  | [] => Option.none
  | (k, fd) :: rest =>
    if (key = fd.name ∨ fd.alt = some key) ∧
        (fd.high_resolution = Option.none ∨ fd.high_resolution = hr) then
      some (k, fd)
    else resolveFieldIn hr key rest

def resolveField (hr : Option Bool) (key : String) : Option (String × FieldData) :=
  resolveFieldIn hr key dps_data

/-- The encode steps of `parseValue` for this table: `scale` multiplies and
truncates (`val = int(val * scale)`); the table has no `encode` or `base64`
entries, and the `enum` check only logs.  Scaling a non-numeric value is
Python's `TypeError`. -/
def encodeForField (fd : FieldData) (val : PyObj) : Except String PyObj :=
  match fd.scale with
  | Option.none => Except.ok val
  | some sc =>
    match toNumQ val with
    | some qv => Except.ok (PyObj.i (truncQ (qMul qv ((sc : ℚ)))))
    | Option.none => Except.error "TypeError: unsupported operand type for multiplication"

/-- `BreakerDevice.parseValue`.  `.ok none` models the `return False` taken
when no table entry resolves (after logging a warning). -/
def parseValue (hr : Option Bool) (key : String) (val : PyObj) :
    Except String (Option (String × PyObj)) :=
  match resolveField hr key with
  | Option.none => Except.ok Option.none
  | some (dps, fd) =>
    match encodeForField fd val with
    | Except.error e => Except.error e
    | Except.ok v => Except.ok (some (dps, v))

/-- Outcome of `setValue`: handed to the transport (`set_value(dps, val,
nowait=True)`) or buffered (`delayed_updates[dps] = val; return True`). -/
inductive SetOutcome
  | sent (dps : String) (v : PyObj)
  | queued
deriving DecidableEq, Repr

/-- `BreakerDevice.setValue`.  The first statement `dps, val =
self.parseValue( key, val )` tuple-unpacks the result; when `parseValue`
returned `False` this raises `TypeError` before any state is touched. -/
def setValue (st : OutState) (key : String) (val : PyObj) :
    OutState × Except String SetOutcome :=
  match parseValue st.high_resolution key val with
  | Except.error e => (st, Except.error e)
  | Except.ok Option.none =>
    (st, Except.error "TypeError: cannot unpack non-iterable bool object")
  | Except.ok (some (dps, v)) =>
    if st.delay_updates then
      ({ st with delayed_updates := assocSet st.delayed_updates dps v },
        Except.ok SetOutcome.queued)
    else
      (st, Except.ok (SetOutcome.sent dps v))

/-- Error projection of a group `update` result. -/
def updErr (r : Except String (Option (List SensorValue))) : Option String :=
  match r with
  | Except.ok _ => Option.none
  | Except.error e => some e

/-- Error projection of an `_inspect_data` result. -/
def inspectErr (r : Except String (DeviceState × List String × List SensorValue)) :
    Option String :=
  match r with
  | Except.ok _ => Option.none
  | Except.error e => some e

/-! ## Auxiliary notions used by the statements and proofs -/

/-- Pairwise-distinct strings (uniqueness of sensor names / payload keys). -/
def nodupStr : List String → Bool
  | [] => true
  | x :: r => (!(r.contains x)) && nodupStr r

/-- A sensor value as built by one of the four constructors: the attributes
its class renders in `__str__` are present. -/
def canonical (nv : SensorValue) : Bool :=
  match nv.kind with
  | SVKind.floatK => match nv.value with | some (SVal.f _) => true | _ => false
  | SVKind.intK => match nv.value with | some (SVal.i _) => true | _ => false
  | SVKind.strK => match nv.value with | some (SVal.s _) => true | _ => false
  | SVKind.alarmK =>
    nv.threshold.isSome && nv.switch_alarm.isSome && nv.unit.isSome

/-- Sequential `_insert_or_update_value` calls (the common shape of both
`update` loops once all records are parsed). -/
def insertMany (sensors : List SensorValue) :
    List SensorValue → List SensorValue × List SensorValue
  | [] => (sensors, [])
  | nv :: rest =>
    let r := insertOrUpdateValue sensors nv.name nv
    let m := insertMany r.1 rest
    (m.1, (if r.2.2.1 then [r.2.2.2] else []) ++ m.2)

/-- Parse every 4-byte record of an alarm payload; `none` if any fails. -/
def parseAll (dps : String) : List Nat → Option (List SensorValue)
  | [] => some []
  | b0 :: b1 :: b2 :: b3 :: rest =>
    match parseAlarmFromBytes dps [b0, b1, b2, b3] with
    | Except.ok nv => (parseAll dps rest).map (fun l => nv :: l)
    | Except.error _ => Option.none
  | _ => Option.none

/-- The three float readings `BreakerSensorPhase.update` inserts. -/
def phaseNVs (data : List Nat) : List SensorValue :=
  [mkFloat "voltage" (qDiv ((be16 (data.getD 0 0) (data.getD 1 0) : Nat) : ℚ) 10),
   mkFloat "current_a"
     (qDiv ((be24 (data.getD 2 0) (data.getD 3 0) (data.getD 4 0) : Nat) : ℚ) 1000),
   mkFloat "power_kw"
     (qDiv ((be24 (data.getD 5 0) (data.getD 6 0) (data.getD 7 0) : Nat) : ℚ) 1000)]

/-- Well-formedness of a group's stored list: unique names, entries of the
group's value class.  Every state reachable from the constructor satisfies
it. -/
def groupOKb (k : SVKind) (g : SensorGroup) : Bool :=
  nodupStr (g.sensors.map SensorValue.name) && g.sensors.all (fun s => s.kind == k)

def deviceOKb (st : DeviceState) : Bool :=
  groupOKb SVKind.floatK st.phase && groupOKb SVKind.alarmK st.alarm1 &&
    groupOKb SVKind.alarmK st.alarm2

/-- The alarm payload for `key` (when present as bytes) holds at most one
record per alarm name, for a group whose dps id is `gdps`. -/
def alarmNamesOKb (dps : List (String × DpVal)) (key gdps : String) : Bool :=
  match assocLookup dps key with
  | some (DpVal.bin bs) => nodupStr (alarmRecordNames gdps bs)
  | _ => true

/-- The attribute names one payload entry may write. -/
def entryWrites (k : String) : List String :=
  match assocLookup dps_data k with
  | Option.none => []
  | some fd => [checknameFd fd, fd.name]

def writeNames : List (String × DpVal) → List String
  | [] => []
  | (k, _) :: r => entryWrites k ++ writeNames r

/-- The entries of a group list carrying a given name. -/
def filterName (m : String) (l : List SensorValue) : List SensorValue :=
  l.filter (fun e => e.name == m)

/-- Every stored entry named `m` renders like `nv` and absorbs a copy of
`nv`'s attributes without changing (the state reached right after inserting
`nv`). -/
def FixedAt (m : String) (nv : SensorValue) (l : List SensorValue) : Prop :=
  ∀ e ∈ l, e.name = m →
    strOfSensorValue e = strOfSensorValue nv ∧ copyAttrs e nv = e


/-- A concrete payload used to instantiate the idempotence theorem: one
scaled scalar register and one single-record alarm payload. -/
def c5Payload : List (String × DpVal) :=
  [("1", DpVal.raw (PyObj.i 12345)), ("17", DpVal.bin [4, 1, 0, 10])]

def c5St1 : DeviceState :=
  match inspectData freshDevice 0 Option.none c5Payload with
  | Except.ok (s, _, _) => s
  | Except.error _ => freshDevice

def c5C1 : List String :=
  match inspectData freshDevice 0 Option.none c5Payload with
  | Except.ok (_, c, _) => c
  | Except.error _ => []

def c5S1 : List SensorValue :=
  match inspectData freshDevice 0 Option.none c5Payload with
  | Except.ok (_, _, sv) => sv
  | Except.error _ => []

/-! ## Theorems

First the bridge between the `mkRat`-based operations and the `ℚ` field
operations, then the claims. -/

theorem qMul_eq (a b : ℚ) : qMul a b = a * b := by
  unfold qMul
  rw [Rat.mkRat_eq_div]
  push_cast
  rw [← div_mul_div_comm, Rat.num_div_den, Rat.num_div_den]

theorem qSub_eq (a b : ℚ) : qSub a b = a - b := by
  unfold qSub
  rw [Rat.mkRat_eq_div]
  have h1 : ((a.den : ℚ)) ≠ 0 := by
    exact_mod_cast a.den_nz
  have h2 : ((b.den : ℚ)) ≠ 0 := by
    exact_mod_cast b.den_nz
  push_cast
  conv_rhs => rw [← Rat.num_div_den a, ← Rat.num_div_den b]
  field_simp
  ring

theorem qDiv_eq (a b : ℚ) : qDiv a b = a / b := by
  unfold qDiv
  have h1 : ((a.den : ℚ)) ≠ 0 := by
    exact_mod_cast a.den_nz
  have h2 : ((b.den : ℚ)) ≠ 0 := by
    exact_mod_cast b.den_nz
  rcases lt_trichotomy b.num 0 with h | h | h
  · rw [if_pos h, Rat.mkRat_eq_div]
    have hb : ((b.num.natAbs : Nat) : ℚ) = -((b.num : ℚ)) := by
      rw [Int.cast_natAbs, abs_of_neg h]
      push_cast
      ring
    have hbn : ((b.num : ℚ)) ≠ 0 := by
      intro hc
      rw [show ((0:ℚ)) = ((0 : Int) : ℚ) by norm_num] at hc
      exact absurd (Int.cast_injective hc) (by omega)
    push_cast [hb]
    conv_rhs => rw [← Rat.num_div_den a, ← Rat.num_div_den b]
    field_simp
  · rw [if_neg (by omega)]
    have hb0 : b = 0 := by
      rw [← Rat.num_eq_zero]
      exact h
    rw [Rat.mkRat_eq_div]
    simp [hb0, h]
  · rw [if_neg (by omega), Rat.mkRat_eq_div]
    have hb : ((b.num.natAbs : Nat) : ℚ) = ((b.num : ℚ)) := by
      rw [Int.cast_natAbs, abs_of_pos h]
    have hbn : ((b.num : ℚ)) ≠ 0 := by
      intro hc
      rw [show ((0:ℚ)) = ((0 : Int) : ℚ) by norm_num] at hc
      exact absurd (Int.cast_injective hc) (by omega)
    push_cast [hb]
    conv_rhs => rw [← Rat.num_div_den a, ← Rat.num_div_den b]
    field_simp

theorem qFloor_eq (q : ℚ) : qFloor q = Int.floor q := by
  unfold qFloor
  rw [Int.fdiv_eq_ediv _ (by positivity), Rat.floor_def]

theorem qCeil_eq (q : ℚ) : qCeil q = Int.ceil q := by
  unfold qCeil
  rw [show Int.ceil q = -Int.floor (-q) by rw [Int.floor_neg, neg_neg], Rat.floor_def]
  simp [Rat.neg_num, Rat.neg_den, Int.fdiv_eq_ediv _ (by positivity : (0:Int) ≤ ((q.den : Int)))]

theorem mkRat_half : mkRat 1 2 = (1 : ℚ) / 2 := by
  rw [Rat.mkRat_eq_div]
  norm_num

/-- Truncation toward zero is the identity on integers. -/
theorem truncQ_intCast (m : Int) : truncQ ((m : ℚ)) = m := by
  unfold truncQ
  rcases le_or_lt 0 ((m : ℚ)).num with h | h
  · rw [if_pos h, qFloor_eq, Int.floor_intCast]
  · rw [if_neg (by omega), qCeil_eq, Int.ceil_intCast]

/-- `int(v * s)` on integers is exact multiplication. -/
theorem truncQ_int_mul (v s : Int) : truncQ (qMul ((v : ℚ)) ((s : ℚ))) = v * s := by
  rw [qMul_eq, show ((v : ℚ)) * ((s : ℚ)) = ((v * s : Int) : ℚ) by push_cast; ring]
  exact truncQ_intCast _

theorem roundHalfEven_intCast (m : Int) : roundHalfEven ((m : ℚ)) = m := by
  simp only [roundHalfEven, qFloor_eq, Int.floor_intCast, qSub_eq, sub_self, mkRat_half]
  norm_num

theorem roundTo3_of_mul_int (q : ℚ) (m : Int) (h : 1000 * q = ((m : ℚ))) :
    roundTo3 q = q := by
  unfold roundTo3
  rw [show qMul 1000 q = ((m : ℚ)) by rw [qMul_eq, h], roundHalfEven_intCast, qDiv_eq]
  rw [eq_comm, eq_div_iff (by norm_num : ((1000 : ℚ)) ≠ 0)]
  rw [← h]
  ring

/-- `round(x, 3)` is the identity on rationals with at most three decimals;
integer case. -/
theorem roundTo3_int (n : Int) : roundTo3 ((n : ℚ)) = ((n : ℚ)) :=
  roundTo3_of_mul_int _ (1000 * n) (by push_cast; ring)

theorem roundTo3_div10 (n : Int) : roundTo3 ((n : ℚ) / 10) = (n : ℚ) / 10 :=
  roundTo3_of_mul_int _ (100 * n) (by push_cast; ring)

theorem roundTo3_div1000 (n : Int) : roundTo3 ((n : ℚ) / 1000) = (n : ℚ) / 1000 :=
  roundTo3_of_mul_int _ n (by ring)

/-- C1: counterexample to the claimed change list — it is not exactly
["total_forward_energy"], since the raw shadow name is reported as well. -/
theorem C1_counterexample :
    inspectChanged (inspectData freshDevice 0 Option.none
      [("1", DpVal.raw (PyObj.i 12345))]) ≠ some ["total_forward_energy"] := by
  decide

/-- C1: amended.  The payload with data point "1" carrying 12345 applied to a
fresh device reports the change list ["total_forward_energy",
"raw_total_forward_energy"] (the raw shadow attribute is appended too), no
changed sensors, and stores 123.45 as the current value of
total_forward_energy, keeping the raw value 12345. -/
theorem C1_total_forward_energy :
    inspectChanged (inspectData freshDevice 0 Option.none
        [("1", DpVal.raw (PyObj.i 12345))]) =
      some ["total_forward_energy", "raw_total_forward_energy"] ∧
    inspectSensors (inspectData freshDevice 0 Option.none
        [("1", DpVal.raw (PyObj.i 12345))]) = some [] ∧
    inspectAttr (inspectData freshDevice 0 Option.none
        [("1", DpVal.raw (PyObj.i 12345))]) "total_forward_energy" =
      some (PyObj.q ((12345 : ℚ) / 100)) ∧
    inspectAttr (inspectData freshDevice 0 Option.none
        [("1", DpVal.raw (PyObj.i 12345))]) "raw_total_forward_energy" =
      some (PyObj.i 12345) := by
  have h : ((12345 : ℚ) / 100) = mkRat 2469 20 := by
    rw [Rat.mkRat_eq_div]
    norm_num
  refine ⟨by decide, by decide, ?_, by decide⟩
  rw [h]
  decide

/-- C3: code bug.  On empty input both group updates clear the entry list
but execute a bare `return`, yielding `None` instead of an empty change
collection, and the caller's `+=` then raises a TypeError (last conjunct).
The stride part of the claim holds: a non-empty input whose length is not a
multiple of 8 (phase) or 4 (alarm) raises the decode error. -/
theorem C3_empty_and_stride : ∀ (g : SensorGroup) (ts : Int),
    (phaseUpdate g ts [] = ({ g with timestamp := ts, sensors := [] }, Except.ok Option.none)) ∧
    (alarmUpdate g ts [] = ({ g with timestamp := ts, sensors := [] }, Except.ok Option.none)) ∧
    (∀ data : List Nat, 1 ≤ data.length → data.length % 8 ≠ 0 →
      phaseUpdate g ts data = ({ g with timestamp := ts },
        Except.error "Unhandled Breaker Sensor Phase data length")) ∧
    (∀ data : List Nat, 1 ≤ data.length → data.length % 4 ≠ 0 →
      alarmUpdate g ts data = ({ g with timestamp := ts },
        Except.error "Unhandled Breaker Sensor Phase data length")) ∧
    inspectErr (inspectData freshDevice 0 Option.none [("6", DpVal.bin [])]) =
      some "TypeError: unsupported operand types for +=: list and NoneType" := by
  intro g ts
  refine ⟨?_, ?_, ?_, ?_, by decide⟩
  · simp [phaseUpdate]
  · simp [alarmUpdate]
  · intro data h1 h2
    simp only [phaseUpdate]
    rw [if_neg (by omega), if_pos h2]
  · intro data h1 h2
    simp only [alarmUpdate]
    rw [if_neg (by omega), if_pos h2]

/-- C4: counterexample to any rollback reading — after a failing update the
first record remains applied and the stored last_state has changed. -/
theorem C4_counterexample :
    updErr (alarmUpdate freshAlarm1 0 [4, 1, 0, 10, 255, 0, 0, 0]).2 =
      some "Unhandled Breaker alert data type" ∧
    (alarmUpdate freshAlarm1 0 [4, 1, 0, 10, 255, 0, 0, 0]).1.sensors =
      [mkAlarm "leakage" 10 true "mA"] ∧
    (alarmUpdate freshAlarm1 0 [4, 1, 0, 10, 255, 0, 0, 0]).1.sensors ≠ freshAlarm1.sensors ∧
    (alarmUpdate freshAlarm1 0 [4, 1, 0, 10, 255, 0, 0, 0]).1.last_state ≠
      freshAlarm1.last_state := by
  refine ⟨by decide, by decide, by decide, by decide⟩

/-- C5: counterexample to unconditional idempotence — an alarm payload with
two records for the same alarm name makes the second application of the
identical payload report a non-empty changed-sensor list. -/
theorem C5_counterexample :
    secondSensors 0 (some 1) [("17", DpVal.bin [4, 1, 0, 10, 4, 1, 0, 20])] ≠ some [] ∧
    secondSensors 0 (some 1) [("17", DpVal.bin [4, 1, 0, 10, 4, 1, 0, 20])] ≠ Option.none := by
  exact ⟨by decide, by decide⟩

/-- C10: after storing a threshold of 10 for over_current (group 18, scale
10), an update carrying raw 104 (threshold 10.4) reports NO change — the
alarm value's string rendering formats the threshold with a 0-digit float
format — yet the stored threshold is silently overwritten to 10.4. -/
theorem C10_fractional_threshold :
    (alarmUpdate freshAlarm2 0 [1, 0, 0, 100]).1.sensors =
      [{ kind := SVKind.alarmK, name := "over_current", value := Option.none,
         threshold := some 10, switch_alarm := some false, unit := some "A" }] ∧
    updOk (alarmUpdate (alarmUpdate freshAlarm2 0 [1, 0, 0, 100]).1 1 [1, 0, 0, 104]).2 =
      some (some []) ∧
    (alarmUpdate (alarmUpdate freshAlarm2 0 [1, 0, 0, 100]).1 1 [1, 0, 0, 104]).1.sensors =
      [{ kind := SVKind.alarmK, name := "over_current", value := Option.none,
         threshold := some ((52 : ℚ) / 5), switch_alarm := some false, unit := some "A" }] := by
  have h : ((52 : ℚ) / 5) = mkRat 52 5 := by
    rw [Rat.mkRat_eq_div]
    norm_num
  refine ⟨by decide, by decide, ?_⟩
  rw [h]
  decide

/-- C2: code bug.  For a key resolving to no field entry, `parseValue` logs
the warning and returns `False` (modelled `ok none`) as the spec intends,
but `setValue` tuple-unpacks that `False` and raises a TypeError, leaving
the delayed-updates buffer unchanged. -/
theorem C2_unresolved_key (st : OutState) (key : String) (val : PyObj)
    (h : resolveField st.high_resolution key = Option.none) :
    parseValue st.high_resolution key val = Except.ok Option.none ∧
    setValue st key val =
      (st, Except.error "TypeError: cannot unpack non-iterable bool object") := by
  unfold setValue parseValue
  rw [h]
  exact ⟨rfl, rfl⟩

theorem C2_witness :
    resolveField Option.none "no_such_field" = Option.none ∧
    parseValue Option.none "no_such_field" (PyObj.i 1) = Except.ok Option.none ∧
    setValue { high_resolution := Option.none, delay_updates := true, delayed_updates := [] }
        "no_such_field" (PyObj.i 1) =
      ({ high_resolution := Option.none, delay_updates := true, delayed_updates := [] },
        Except.error "TypeError: cannot unpack non-iterable bool object") :=
  ⟨by decide,
    (C2_unresolved_key
      { high_resolution := Option.none, delay_updates := true, delayed_updates := [] }
      "no_such_field" (PyObj.i 1) (by decide)).1,
    (C2_unresolved_key
      { high_resolution := Option.none, delay_updates := true, delayed_updates := [] }
      "no_such_field" (PyObj.i 1) (by decide)).2⟩

theorem parseAlarm_cases (dps : String) (c : List Nat) :
    (∃ nv, parseAlarmFromBytes dps c = Except.ok nv) ∨
      parseAlarmFromBytes dps c = Except.error "Unhandled Breaker alert data type" := by
  unfold parseAlarmFromBytes
  by_cases h17 : dps = "17" <;> by_cases h18 : dps = "18" <;>
    by_cases hb1 : c.getD 0 0 = 1 <;> by_cases hb3 : c.getD 0 0 = 3 <;>
    by_cases hb4 : c.getD 0 0 = 4 <;> by_cases hb5 : c.getD 0 0 = 5 <;>
    simp_all

theorem alarmLoop_hasBad (dps : String) :
    ∀ (data : List Nat) (sensors : List SensorValue),
      data.length % 4 = 0 → hasBadRecord dps data = true →
      (alarmLoop dps sensors data).2 = Except.error "Unhandled Breaker alert data type"
  | [], _ => by
    intro _ hbad
    simp [hasBadRecord, records4] at hbad
  | [b0], _ => by
    intro hlen _
    simp at hlen
  | [b0, b1], _ => by
    intro hlen _
    simp at hlen
  | [b0, b1, b2], _ => by
    intro hlen _
    simp at hlen
  | b0 :: b1 :: b2 :: b3 :: rest, sensors => by
    intro hlen hbad
    have hrest : rest.length % 4 = 0 := by
      simp [List.length] at hlen
      omega
    simp only [alarmLoop]
    rcases parseAlarm_cases dps [b0, b1, b2, b3] with hpe | hp
    case inr =>
      simp [hp]
    case inl =>
      obtain ⟨nv, hp⟩ := hpe
      have hbad2 : hasBadRecord dps rest = true := by
        have h0 : hasBadRecord dps (b0 :: b1 :: b2 :: b3 :: rest) =
            ((match parseAlarmFromBytes dps [b0, b1, b2, b3] with
              | Except.error _ => true
              | Except.ok _ => false) || hasBadRecord dps rest) := by
          simp [hasBadRecord, records4]
        rw [h0, hp] at hbad
        simpa using hbad
      have ih := alarmLoop_hasBad dps rest
        (insertOrUpdateValue sensors nv.name nv).1 hrest hbad2
      simp [hp, ih, Except.map]

/-- C4: amended.  An alarm-group update containing a record with an
unrecognized alert-type byte raises the fatal decode error, but the group
state is not rolled back: `last_state` is overwritten with the new input
before parsing, and records preceding the offending one have already been
applied to the entry list. -/
theorem C4_partial_application (g : SensorGroup) (ts : Int) (data : List Nat)
    (h1 : 1 ≤ data.length) (h4 : data.length % 4 = 0)
    (hbad : hasBadRecord g.dps data = true) :
    (alarmUpdate g ts data).2 = Except.error "Unhandled Breaker alert data type" ∧
    (alarmUpdate g ts data).1.last_state = data := by
  simp only [alarmUpdate]
  rw [if_neg (by omega), if_neg (by omega)]
  constructor
  · have h := alarmLoop_hasBad g.dps data g.sensors h4 hbad
    simp [h, Except.map]
  · rfl

theorem C4_witness :
    (alarmUpdate freshAlarm1 3 [255, 0, 0, 0]).2 =
      Except.error "Unhandled Breaker alert data type" ∧
    (alarmUpdate freshAlarm1 3 [255, 0, 0, 0]).1.last_state = [255, 0, 0, 0] :=
  C4_partial_application freshAlarm1 3 [255, 0, 0, 0] (by decide) (by decide) (by decide)

theorem roundTo3_natCast_div10 (n : Nat) : roundTo3 (((n : Nat) : ℚ) / 10) = ((n : ℚ)) / 10 := by
  rw [show (((n : Nat)) : ℚ) = (((n : Int)) : ℚ) by push_cast; ring, roundTo3_div10]

theorem roundTo3_natCast_div1000 (n : Nat) :
    roundTo3 (((n : Nat) : ℚ) / 1000) = ((n : ℚ)) / 1000 := by
  rw [show (((n : Nat)) : ℚ) = (((n : Int)) : ℚ) by push_cast; ring, roundTo3_div1000]

theorem roundTo3_natCast (n : Nat) : roundTo3 (((n : Nat) : ℚ)) = ((n : ℚ)) := by
  rw [show (((n : Nat)) : ℚ) = (((n : Int)) : ℚ) by push_cast; ring, roundTo3_int]

/-- C7: amended.  A phase update whose length is a positive multiple of 8
decodes only the FIRST 8-byte record: big-endian 16-bit of bytes 0-1 over 10
as voltage, big-endian 24-bit of bytes 2-4 over 1000 as current_a, and
big-endian 24-bit of bytes 5-7 over 1000 as power_kw; later records are kept
only in last_state. -/
theorem C7_first_record (g : SensorGroup) (hg : g.sensors = [])
    (ts : Int) (b0 b1 b2 b3 b4 b5 b6 b7 : Nat) (rest : List Nat)
    (hlen : rest.length % 8 = 0) :
    phaseUpdate g ts (b0 :: b1 :: b2 :: b3 :: b4 :: b5 :: b6 :: b7 :: rest) =
      ({ g with
          timestamp := ts,
          last_state := b0 :: b1 :: b2 :: b3 :: b4 :: b5 :: b6 :: b7 :: rest,
          sensors := [
            mkFloat "voltage" (((be16 b0 b1 : Nat) : ℚ) / 10),
            mkFloat "current_a" (((be24 b2 b3 b4 : Nat) : ℚ) / 1000),
            mkFloat "power_kw" (((be24 b5 b6 b7 : Nat) : ℚ) / 1000)] },
        Except.ok (some [
           mkFloat "voltage" (((be16 b0 b1 : Nat) : ℚ) / 10),
           mkFloat "current_a" (((be24 b2 b3 b4 : Nat) : ℚ) / 1000),
           mkFloat "power_kw" (((be24 b5 b6 b7 : Nat) : ℚ) / 1000)])) ∧
    (mkFloat "voltage" (((be16 b0 b1 : Nat) : ℚ) / 10)).value =
      some (SVal.f (((be16 b0 b1 : Nat) : ℚ) / 10)) ∧
    (mkFloat "current_a" (((be24 b2 b3 b4 : Nat) : ℚ) / 1000)).value =
      some (SVal.f (((be24 b2 b3 b4 : Nat) : ℚ) / 1000)) ∧
    (mkFloat "power_kw" (((be24 b5 b6 b7 : Nat) : ℚ) / 1000)).value =
      some (SVal.f (((be24 b5 b6 b7 : Nat) : ℚ) / 1000)) := by
  refine ⟨?_, ?_, ?_, ?_⟩
  · simp only [phaseUpdate]
    rw [if_neg (by simp), if_neg (by simp; omega)]
    simp only [List.getD, hg, qDiv_eq]
    simp [insertOrUpdateValue, insertLoop, mkFloat]
  · simp [mkFloat, roundTo3_natCast_div10]
  · simp [mkFloat, roundTo3_natCast_div1000]
  · simp [mkFloat, roundTo3_natCast_div1000]

/-- C7: counterexample to "decodes each 8-byte record" — on a 16-byte input
only the first record's values are stored; the second record's values (2 V
etc.) appear nowhere in the stored sensors. -/
theorem C7_counterexample :
    (phaseUpdate freshPhase 0
        [0, 10, 0, 0, 100, 0, 0, 100, 0, 20, 0, 0, 200, 0, 0, 200]).1.sensors =
      [mkFloat "voltage" (mkRat 1 1), mkFloat "current_a" (mkRat 1 10),
        mkFloat "power_kw" (mkRat 1 10)] ∧
    ((phaseUpdate freshPhase 0
        [0, 10, 0, 0, 100, 0, 0, 100, 0, 20, 0, 0, 200, 0, 0, 200]).1.sensors.all
      (fun sv => sv.value != some (SVal.f 2))) = true := by
  exact ⟨by decide, by decide⟩

theorem C7_witness :
    phaseUpdate freshPhase 0 [0, 10, 0, 0, 100, 0, 0, 100] =
      ({ freshPhase with
          timestamp := 0,
          last_state := [0, 10, 0, 0, 100, 0, 0, 100],
          sensors := [
            mkFloat "voltage" (((be16 0 10 : Nat) : ℚ) / 10),
            mkFloat "current_a" (((be24 0 0 100 : Nat) : ℚ) / 1000),
            mkFloat "power_kw" (((be24 0 0 100 : Nat) : ℚ) / 1000)] },
        Except.ok (some [
            mkFloat "voltage" (((be16 0 10 : Nat) : ℚ) / 10),
            mkFloat "current_a" (((be24 0 0 100 : Nat) : ℚ) / 1000),
            mkFloat "power_kw" (((be24 0 0 100 : Nat) : ℚ) / 1000)])) :=
  (C7_first_record freshPhase rfl 0 0 10 0 0 100 0 0 100 [] (by decide)).1

/-- C8: each 4-byte alarm record decodes as alert-type byte, enabled byte
(0x01 means enabled), and big-endian 16-bit threshold divided by the
per-type scale, for every alert type of both groups, with the spec's two
concrete examples checked through the full update. -/
theorem C8_alarm_decode :
    (∀ b1 b2 b3 : Nat, parseAlarmFromBytes "17" [4, b1, b2, b3] =
        Except.ok ⟨SVKind.alarmK, "leakage", Option.none,
          some (((256 * b2 + b3 : Nat) : ℚ)), some (b1 == 1), some "mA"⟩) ∧
    (∀ b1 b2 b3 : Nat, parseAlarmFromBytes "17" [5, b1, b2, b3] =
        Except.ok ⟨SVKind.alarmK, "high_temperature", Option.none,
          some (((256 * b2 + b3 : Nat) : ℚ)), some (b1 == 1), some "C"⟩) ∧
    (∀ b1 b2 b3 : Nat, parseAlarmFromBytes "18" [1, b1, b2, b3] =
        Except.ok ⟨SVKind.alarmK, "over_current", Option.none,
          some (((256 * b2 + b3 : Nat) : ℚ) / 10), some (b1 == 1), some "A"⟩) ∧
    (∀ b1 b2 b3 : Nat, parseAlarmFromBytes "18" [3, b1, b2, b3] =
        Except.ok ⟨SVKind.alarmK, "overvoltage", Option.none,
          some (((256 * b2 + b3 : Nat) : ℚ)), some (b1 == 1), some "V"⟩) ∧
    (∀ b1 b2 b3 : Nat, parseAlarmFromBytes "18" [4, b1, b2, b3] =
        Except.ok ⟨SVKind.alarmK, "under voltage", Option.none,
          some (((256 * b2 + b3 : Nat) : ℚ)), some (b1 == 1), some "V"⟩) ∧
    (alarmUpdate freshAlarm1 0 [4, 1, 0, 10]).1.sensors =
      [⟨SVKind.alarmK, "leakage", Option.none, some 10, some true, some "mA"⟩] ∧
    updOk (alarmUpdate freshAlarm1 0 [4, 1, 0, 10]).2 =
      some (some [⟨SVKind.alarmK, "leakage", Option.none, some 10, some true, some "mA"⟩]) ∧
    (alarmUpdate freshAlarm2 0 [1, 0, 0, 100]).1.sensors =
      [⟨SVKind.alarmK, "over_current", Option.none, some 10, some false, some "A"⟩] ∧
    updOk (alarmUpdate freshAlarm2 0 [1, 0, 0, 100]).2 =
      some (some [⟨SVKind.alarmK, "over_current", Option.none, some 10, some false, some "A"⟩]) := by
  have hc : ∀ b2 b3 : Nat, (256 * ((b2 : ℚ)) + ((b3 : ℚ))) = (((256 * b2 + b3 : Nat)) : ℚ) := by
    intro b2 b3
    push_cast
    ring
  refine ⟨?_, ?_, ?_, ?_, ?_, by decide, by decide, by decide, by decide⟩
  · intro b1 b2 b3
    simp [parseAlarmFromBytes, mkAlarm, qDiv_eq]
    rw [hc, roundTo3_natCast]
  · intro b1 b2 b3
    simp [parseAlarmFromBytes, mkAlarm, qDiv_eq]
    rw [hc, roundTo3_natCast]
  · intro b1 b2 b3
    simp [parseAlarmFromBytes, mkAlarm, qDiv_eq]
    rw [hc, roundTo3_natCast_div10]
  · intro b1 b2 b3
    simp [parseAlarmFromBytes, mkAlarm, qDiv_eq]
    rw [hc, roundTo3_natCast]
  · intro b1 b2 b3
    simp [parseAlarmFromBytes, mkAlarm, qDiv_eq]
    rw [hc, roundTo3_natCast]

theorem assocLookup_mem {α : Type} (l : List (String × α)) (k : String) (v : α)
    (h : assocLookup l k = some v) : (k, v) ∈ l := by
  induction l with
  | nil => simp [assocLookup] at h
  | cons p rest ih =>
    obtain ⟨a, b⟩ := p
    by_cases hak : a = k
    · rw [hak] at h ⊢
      simp [assocLookup] at h
      simp [h]
    · simp [assocLookup, hak] at h
      simp [ih h]

theorem scaled_trio (k : String) (fd : FieldData)
    (hname : resolveField Option.none fd.name = some (k, fd))
    (hsc : fd.scale = some 100) :
    (∀ v : Int, parseValue Option.none fd.name (PyObj.i v) =
        Except.ok (some (k, PyObj.i (v * 100)))) ∧
    (∀ r : Int, applyScale fd.scale (PyObj.i r) =
        Except.ok (PyObj.q (((r : ℚ)) / (((100 : Int)) : ℚ)))) ∧
    (∀ v : Int, applyScale fd.scale (PyObj.i (v * 100)) =
        Except.ok (PyObj.q ((v : ℚ)))) := by
  refine ⟨?_, ?_, ?_⟩
  · intro v
    simp only [parseValue, hname, encodeForField, hsc, toNumQ]
    rw [truncQ_int_mul]
  · intro r
    rw [hsc]
    simp only [applyScale, qDiv_eq]
  · intro v
    rw [hsc]
    simp only [applyScale, qDiv_eq]
    rw [show (((v * 100 : Int)) : ℚ) = ((v : ℚ)) * 100 by push_cast; ring]
    rw [show (((100 : Int)) : ℚ) = ((100 : ℚ)) by push_cast; ring]
    rw [mul_div_assoc]
    norm_num

/-- C6: for every registry entry with a scale, outbound encoding multiplies
an integer value by the scale exactly, inbound decoding divides the raw
value by the scale exactly, and decode after encode is the identity. -/
theorem C6_scaled_roundtrip :
    ∀ (k : String) (fd : FieldData), assocLookup dps_data k = some fd →
      ∀ s : Int, fd.scale = some s →
        (∀ v : Int, parseValue Option.none fd.name (PyObj.i v) =
            Except.ok (some (k, PyObj.i (v * s)))) ∧
        (∀ r : Int, applyScale fd.scale (PyObj.i r) =
            Except.ok (PyObj.q (((r : ℚ)) / ((s : ℚ))))) ∧
        (∀ v : Int, applyScale fd.scale (PyObj.i (v * s)) =
            Except.ok (PyObj.q ((v : ℚ)))) := by
  intro k fd hk s hs
  have hmem := assocLookup_mem dps_data k fd hk
  simp only [dps_data, List.mem_cons, List.not_mem_nil, or_false] at hmem
  rcases hmem with h | h | h | h | h | h | h | h | h | h <;>
    (injection h with hk2 hfd; subst hk2; subst hfd) <;>
    first
      | (obtain rfl : (100 : Int) = s := by simpa using hs
         exact scaled_trio _ _ (by decide) rfl)
      | exact absurd hs (by simp)


theorem insertLoop_noMatch (n : String) :
    ∀ (sensors : List SensorValue) (nv : SensorValue) (i c : Bool),
      (sensors.map SensorValue.name).contains n = false →
      insertLoop n sensors nv i c = (sensors, i, c, nv)
  | [], nv, i, c => by
    intro _
    rfl
  | s :: rest, nv, i, c => by
    intro h
    simp only [List.map_cons, List.contains_cons, Bool.or_eq_false_iff, beq_eq_false_iff_ne] at h
    obtain ⟨hne, hrest⟩ := h
    simp only [insertLoop]
    rw [if_neg (by intro hc; exact hne hc.symm)]
    rw [insertLoop_noMatch n rest nv i c (by simpa using hrest)]

theorem insertLoop_match (n : String) :
    ∀ (pre : List SensorValue) (s : SensorValue) (post : List SensorValue)
      (nv : SensorValue) (i c : Bool),
      (pre.map SensorValue.name).contains n = false →
      s.name = n →
      (post.map SensorValue.name).contains n = false →
      insertLoop n (pre ++ s :: post) nv i c =
        (pre ++ copyAttrs s nv :: post, false,
          (strOfSensorValue s != strOfSensorValue nv), copyAttrs s nv)
  | [], s, post, nv, i, c => by
    intro _ hs hpost
    simp only [List.nil_append, insertLoop]
    rw [if_pos hs]
    rw [insertLoop_noMatch n post (copyAttrs s nv) false _ hpost]
  | p :: pre, s, post, nv, i, c => by
    intro hpre hs hpost
    simp only [List.map_cons, List.contains_cons, Bool.or_eq_false_iff,
      beq_eq_false_iff_ne] at hpre
    obtain ⟨hne, hpre2⟩ := hpre
    simp only [List.cons_append, insertLoop]
    rw [if_neg (by intro hc; exact hne hc.symm)]
    simp only [List.append_eq]
    rw [insertLoop_match n pre s post nv i c (by simpa using hpre2) hs hpost]

theorem nodup_decompose :
    ∀ (sensors : List SensorValue) (n : String),
      nodupStr (sensors.map SensorValue.name) = true →
      (sensors.map SensorValue.name).contains n = true →
      ∃ pre s post, sensors = pre ++ s :: post ∧ s.name = n ∧
        (pre.map SensorValue.name).contains n = false ∧
        (post.map SensorValue.name).contains n = false
  | [], n => by
    intro _ hc
    simp at hc
  | s :: rest, n => by
    intro hnd hc
    simp only [List.map_cons, nodupStr, Bool.and_eq_true, Bool.not_eq_true'] at hnd
    obtain ⟨hnotin, hndrest⟩ := hnd
    by_cases hsn : s.name = n
    · refine ⟨[], s, rest, by simp, hsn, by simp, ?_⟩
      rw [← hsn]
      exact hnotin
    · have hc2 : (rest.map SensorValue.name).contains n = true := by
        simp only [List.map_cons, List.contains_cons, Bool.or_eq_true] at hc
        rcases hc with hc | hc
        · exact absurd (beq_iff_eq.mp hc).symm hsn
        · exact hc
      obtain ⟨pre, s2, post, heq, hs2, hpre, hpost⟩ := nodup_decompose rest n hndrest hc2
      refine ⟨s :: pre, s2, post, by rw [heq]; rfl, hs2, ?_, hpost⟩
      simp only [List.map_cons, List.contains_cons, Bool.or_eq_false_iff]
      refine ⟨?_, hpre⟩
      exact beq_eq_false_iff_ne.mpr (fun hcc => hsn hcc.symm)

theorem map_ite_of_noMatch (n : String) (nv : SensorValue) :
    ∀ (l : List SensorValue), (l.map SensorValue.name).contains n = false →
      l.map (fun s => if s.name = n then copyAttrs s nv else s) = l
  | [] => by
    intro _
    rfl
  | s :: rest => by
    intro h
    simp only [List.map_cons, List.contains_cons, Bool.or_eq_false_iff,
      beq_eq_false_iff_ne] at h
    obtain ⟨hne, hrest⟩ := h
    simp only [List.map_cons]
    rw [if_neg (fun hc => hne hc.symm)]
    rw [map_ite_of_noMatch n nv rest (by simpa using hrest)]

theorem contains_append (y : String) :
    ∀ (l1 l2 : List String), (l1 ++ l2).contains y = (l1.contains y || l2.contains y)
  | [], l2 => by
    simp
  | x :: rest, l2 => by
    simp only [List.cons_append, List.contains_cons, contains_append y rest l2, Bool.or_assoc]

theorem nodupStr_append_singleton :
    ∀ (l : List String) (x : String), nodupStr l = true → l.contains x = false →
      nodupStr (l ++ [x]) = true
  | [], x => by
    intro _ _
    rfl
  | y :: rest, x => by
    intro hnd hc
    simp only [nodupStr, Bool.and_eq_true, Bool.not_eq_true'] at hnd
    obtain ⟨hny, hndrest⟩ := hnd
    simp only [List.contains_cons, Bool.or_eq_false_iff] at hc
    obtain ⟨hxy, hcrest⟩ := hc
    simp only [List.cons_append, nodupStr, Bool.and_eq_true, Bool.not_eq_true']
    refine ⟨?_, nodupStr_append_singleton rest x hndrest hcrest⟩
    rw [show rest.append [x] = rest ++ [x] from rfl, contains_append]
    simp only [Bool.or_eq_false_iff]
    refine ⟨hny, ?_⟩
    simp only [List.contains_cons, Bool.or_eq_false_iff]
    refine ⟨?_, rfl⟩
    exact beq_eq_false_iff_ne.mpr (fun hcc => (beq_eq_false_iff_ne.mp hxy) hcc.symm)

/-- C9: within one group, `_insert_or_update_value` keeps sensor names
unique: when the incoming name already exists the stored entry is updated in
place via the attribute copy (`copyAttrs`), the list shape is untouched;
only a genuinely new name appends an entry. -/
theorem C9_insert_or_update_unique (sensors : List SensorValue) (nv : SensorValue)
    (hnd : nodupStr (sensors.map SensorValue.name) = true) :
    nodupStr (((insertOrUpdateValue sensors nv.name nv).1).map SensorValue.name) = true ∧
    ((sensors.map SensorValue.name).contains nv.name = true →
      (insertOrUpdateValue sensors nv.name nv).1 =
        sensors.map (fun s => if s.name = nv.name then copyAttrs s nv else s)) ∧
    ((sensors.map SensorValue.name).contains nv.name = false →
      (insertOrUpdateValue sensors nv.name nv).1 = sensors ++ [nv]) := by
  by_cases hc : (sensors.map SensorValue.name).contains nv.name = true
  · obtain ⟨pre, s, post, heq, hs, hpre, hpost⟩ :=
      nodup_decompose sensors nv.name hnd hc
    subst heq
    have hloop := insertLoop_match nv.name pre s post nv true true hpre hs hpost
    have hres : (insertOrUpdateValue (pre ++ s :: post) nv.name nv).1 =
        pre ++ copyAttrs s nv :: post := by
      unfold insertOrUpdateValue
      rw [hloop]
      simp
    have hnames : (pre ++ copyAttrs s nv :: post).map SensorValue.name =
        (pre ++ s :: post).map SensorValue.name := by
      simp [copyAttrs, hs]
    refine ⟨?_, ?_, ?_⟩
    · rw [hres, hnames]
      exact hnd
    · intro _
      rw [hres]
      rw [List.map_append, List.map_cons]
      rw [map_ite_of_noMatch nv.name nv pre hpre]
      rw [if_pos hs]
      rw [map_ite_of_noMatch nv.name nv post hpost]
    · intro hcf
      rw [hc] at hcf
      exact absurd hcf (by simp)
  · have hcf : (sensors.map SensorValue.name).contains nv.name = false := by
      simpa using hc
    have hloop := insertLoop_noMatch nv.name sensors nv true true hcf
    have hres : (insertOrUpdateValue sensors nv.name nv).1 = sensors ++ [nv] := by
      unfold insertOrUpdateValue
      rw [hloop]
      simp
    refine ⟨?_, ?_, ?_⟩
    · rw [hres, List.map_append, List.map_singleton]
      exact nodupStr_append_singleton _ _ hnd hcf
    · intro hct
      rw [hct] at hcf
      exact absurd hcf (by simp)
    · intro _
      exact hres

theorem C9_witness :
    nodupStr ((([mkAlarm "leakage" 10 true "mA"] : List SensorValue).map
      SensorValue.name)) = true ∧
    nodupStr (((insertOrUpdateValue [mkAlarm "leakage" 10 true "mA"]
      (mkAlarm "leakage" 20 false "mA").name (mkAlarm "leakage" 20 false "mA")).1).map
        SensorValue.name) = true ∧
    (insertOrUpdateValue [mkAlarm "leakage" 10 true "mA"]
        (mkAlarm "leakage" 20 false "mA").name (mkAlarm "leakage" 20 false "mA")).1 =
      ([mkAlarm "leakage" 10 true "mA"] : List SensorValue).map
        (fun s => if s.name = (mkAlarm "leakage" 20 false "mA").name then
          copyAttrs s (mkAlarm "leakage" 20 false "mA") else s) :=
  ⟨by decide,
    (C9_insert_or_update_unique [mkAlarm "leakage" 10 true "mA"]
      (mkAlarm "leakage" 20 false "mA") (by decide)).1,
    (C9_insert_or_update_unique [mkAlarm "leakage" 10 true "mA"]
      (mkAlarm "leakage" 20 false "mA") (by decide)).2.1 (by decide)⟩

theorem C3_witness :
    phaseUpdate freshPhase 7 [] =
      ({ freshPhase with timestamp := 7, sensors := [] }, Except.ok Option.none) ∧
    alarmUpdate freshAlarm1 7 [] =
      ({ freshAlarm1 with timestamp := 7, sensors := [] }, Except.ok Option.none) ∧
    phaseUpdate freshPhase 7 [1, 2, 3] =
      ({ freshPhase with timestamp := 7 },
        Except.error "Unhandled Breaker Sensor Phase data length") ∧
    alarmUpdate freshAlarm1 7 [1, 2, 3] =
      ({ freshAlarm1 with timestamp := 7 },
        Except.error "Unhandled Breaker Sensor Phase data length") :=
  ⟨(C3_empty_and_stride freshPhase 7).1,
    (C3_empty_and_stride freshAlarm1 7).2.1,
    (C3_empty_and_stride freshPhase 7).2.2.1 [1, 2, 3] (by decide) (by decide),
    (C3_empty_and_stride freshAlarm1 7).2.2.2.1 [1, 2, 3] (by decide) (by decide)⟩

theorem C6_witness :
    parseValue Option.none "total_forward_energy" (PyObj.i (-3)) =
      Except.ok (some ("1", PyObj.i ((-3) * 100))) ∧
    applyScale (some 100) (PyObj.i 12345) =
      Except.ok (PyObj.q ((((12345 : Int)) : ℚ) / (((100 : Int)) : ℚ))) ∧
    applyScale (some 100) (PyObj.i ((-3) * 100)) =
      Except.ok (PyObj.q ((((-3 : Int)) : ℚ))) := by
  have h := C6_scaled_roundtrip "1"
    { name := "total_forward_energy", scale := some 100 } (by decide) 100 rfl
  exact ⟨h.1 (-3), h.2.1 12345, h.2.2 (-3)⟩

theorem copyAttrs_kind (s nv : SensorValue) : (copyAttrs s nv).kind = s.kind := rfl

theorem copyAttrs_name (s nv : SensorValue) : (copyAttrs s nv).name = nv.name := rfl

theorem copyAttrs_self (nv : SensorValue) : copyAttrs nv nv = nv := by
  simp only [copyAttrs]
  cases nv
  simp only [SensorValue.mk.injEq, true_and]
  refine ⟨?_, ?_, ?_, ?_⟩ <;> split <;> rfl

theorem copyAttrs_idem (s nv : SensorValue) :
    copyAttrs (copyAttrs s nv) nv = copyAttrs s nv := by
  simp only [copyAttrs]
  simp only [SensorValue.mk.injEq, true_and]
  refine ⟨?_, ?_, ?_, ?_⟩ <;> split <;> rfl

theorem strOf_copyAttrs (s nv : SensorValue) (hk : s.kind = nv.kind)
    (hcan : canonical nv = true) :
    strOfSensorValue (copyAttrs s nv) = strOfSensorValue nv := by
  unfold strOfSensorValue
  rw [copyAttrs_kind, hk]
  cases hnk : nv.kind <;> simp only [canonical, hnk] at hcan
  · match hv : nv.value with
    | some (SVal.f q) =>
      simp [copyAttrs, hv]
    | some (SVal.i _) | some (SVal.s _) | Option.none =>
      rw [hv] at hcan
      simp at hcan
  · match hv : nv.value with
    | some (SVal.i n) =>
      simp [copyAttrs, hv]
    | some (SVal.f _) | some (SVal.s _) | Option.none =>
      rw [hv] at hcan
      simp at hcan
  · match hv : nv.value with
    | some (SVal.s st) =>
      simp [copyAttrs, hv]
    | some (SVal.f _) | some (SVal.i _) | Option.none =>
      rw [hv] at hcan
      simp at hcan
  · simp only [Bool.and_eq_true, Option.isSome_iff_exists] at hcan
    obtain ⟨⟨⟨th, hth⟩, ⟨sa, hsa⟩⟩, ⟨u, hu⟩⟩ := hcan
    simp [copyAttrs, hth, hsa, hu]

theorem pyEq_refl (o : PyObj) : pyEq o o = true := by
  cases o <;> simp [pyEq, toNumQ]

theorem mem_name_contains (e : SensorValue) :
    ∀ (l : List SensorValue), e ∈ l → (l.map SensorValue.name).contains e.name = true
  | [] => by
    intro h
    simp at h
  | s :: rest => by
    intro h
    simp only [List.map_cons, List.contains_cons, Bool.or_eq_true]
    rcases List.mem_cons.mp h with h | h
    · subst h
      simp
    · exact Or.inr (mem_name_contains e rest h)

theorem filterName_append (m : String) (l1 l2 : List SensorValue) :
    filterName m (l1 ++ l2) = filterName m l1 ++ filterName m l2 := by
  simp [filterName, List.filter_append]

theorem contains_names_eq_filter (m : String) :
    ∀ (l : List SensorValue),
      (l.map SensorValue.name).contains m = !(filterName m l).isEmpty
  | [] => by
    simp [filterName]
  | e :: rest => by
    by_cases h : e.name = m
    · simp [filterName, List.filter_cons, h]
    · have h1 : (m == e.name) = false := beq_eq_false_iff_ne.mpr (fun hc => h hc.symm)
      have h2 : (e.name == m) = false := beq_eq_false_iff_ne.mpr h
      simp only [List.map_cons, List.contains_cons, h1, Bool.false_or, filterName,
        List.filter_cons, h2, Bool.false_eq_true, if_false]
      exact contains_names_eq_filter m rest

theorem insert_fixed (l : List SensorValue) (nv : SensorValue)
    (hnd : nodupStr (l.map SensorValue.name) = true)
    (hc : (l.map SensorValue.name).contains nv.name = true)
    (hfix : FixedAt nv.name nv l) :
    ∃ e, insertOrUpdateValue l nv.name nv = (l, false, false, e) := by
  obtain ⟨pre, s, post, heq, hs, hpre, hpost⟩ := nodup_decompose l nv.name hnd hc
  subst heq
  have hmem : s ∈ pre ++ s :: post := by simp
  obtain ⟨hstr, hcopy⟩ := hfix s hmem hs
  refine ⟨s, ?_⟩
  unfold insertOrUpdateValue
  rw [insertLoop_match nv.name pre s post nv true true hpre hs hpost]
  rw [hcopy]
  simp [hstr]

theorem insert_post (l : List SensorValue) (nv : SensorValue) (k : SVKind)
    (hnd : nodupStr (l.map SensorValue.name) = true)
    (hkinds : ∀ e ∈ l, e.kind = k)
    (hcan : canonical nv = true) (hnk : nv.kind = k) :
    nodupStr (((insertOrUpdateValue l nv.name nv).1).map SensorValue.name) = true ∧
    (∀ e ∈ (insertOrUpdateValue l nv.name nv).1, e.kind = k) ∧
    FixedAt nv.name nv (insertOrUpdateValue l nv.name nv).1 ∧
    (∀ m, m ≠ nv.name →
      filterName m (insertOrUpdateValue l nv.name nv).1 = filterName m l) ∧
    (((insertOrUpdateValue l nv.name nv).1.map SensorValue.name).contains nv.name
      = true) := by
  by_cases hc : (l.map SensorValue.name).contains nv.name = true
  · obtain ⟨pre, s, post, heq, hs, hpre, hpost⟩ := nodup_decompose l nv.name hnd hc
    subst heq
    have hres : (insertOrUpdateValue (pre ++ s :: post) nv.name nv).1 =
        pre ++ copyAttrs s nv :: post := by
      unfold insertOrUpdateValue
      rw [insertLoop_match nv.name pre s post nv true true hpre hs hpost]
      simp
    have hskind : s.kind = k := hkinds s (by simp)
    have hnames : (pre ++ copyAttrs s nv :: post).map SensorValue.name =
        (pre ++ s :: post).map SensorValue.name := by
      simp [copyAttrs, hs]
    rw [hres]
    refine ⟨?_, ?_, ?_, ?_, ?_⟩
    · rw [hnames]
      exact hnd
    · intro e he
      rcases List.mem_append.mp he with he | he
      · exact hkinds e (by simp [he])
      · rcases List.mem_cons.mp he with he | he
        · subst he
          rw [copyAttrs_kind]
          exact hskind
        · exact hkinds e (by simp [he])
    · intro e he hename
      rcases List.mem_append.mp he with he | he
      · have hcc := mem_name_contains e pre he
        rw [hename, hpre] at hcc
        simp at hcc
      · rcases List.mem_cons.mp he with he | he
        · subst he
          refine ⟨strOf_copyAttrs s nv (by rw [hskind, hnk]) hcan, copyAttrs_idem s nv⟩
        · have hcc := mem_name_contains e post he
          rw [hename, hpost] at hcc
          simp at hcc
    · intro m hm
      rw [filterName_append, filterName_append]
      congr 1
      simp only [filterName, List.filter_cons]
      rw [show ((copyAttrs s nv).name == m) = false from
        beq_eq_false_iff_ne.mpr (by rw [copyAttrs_name]; exact fun hcc => hm hcc.symm)]
      rw [show (s.name == m) = false from
        beq_eq_false_iff_ne.mpr (by rw [hs]; exact fun hcc => hm hcc.symm)]
      simp
    · rw [hnames]
      exact hc
  · have hcf : (l.map SensorValue.name).contains nv.name = false := by
      simpa using hc
    have hres : (insertOrUpdateValue l nv.name nv).1 = l ++ [nv] := by
      unfold insertOrUpdateValue
      rw [insertLoop_noMatch nv.name l nv true true hcf]
      simp
    rw [hres]
    refine ⟨?_, ?_, ?_, ?_, ?_⟩
    · rw [List.map_append, List.map_singleton]
      exact nodupStr_append_singleton _ _ hnd hcf
    · intro e he
      rcases List.mem_append.mp he with he | he
      · exact hkinds e he
      · rw [List.mem_singleton.mp he]
        exact hnk
    · intro e he hename
      rcases List.mem_append.mp he with he | he
      · have hcc := mem_name_contains e l he
        rw [hename, hcf] at hcc
        simp at hcc
      · rw [List.mem_singleton.mp he]
        exact ⟨rfl, copyAttrs_self nv⟩
    · intro m hm
      rw [filterName_append]
      rw [show filterName m [nv] = [] from by
        simp [filterName, List.filter_cons, beq_eq_false_iff_ne.mpr
          (fun hcc => hm hcc.symm)]]
      simp
    · rw [List.map_append, List.map_singleton]
      rw [contains_append]
      simp

theorem FixedAt_of_filter (m : String) (nv : SensorValue) (l1 l2 : List SensorValue)
    (hf : filterName m l2 = filterName m l1) (hfix : FixedAt m nv l1) :
    FixedAt m nv l2 := by
  intro e he hename
  have hmem2 : e ∈ filterName m l2 := by
    simp only [filterName, List.mem_filter]
    exact ⟨he, by simp [hename]⟩
  rw [hf] at hmem2
  have hmem1 : e ∈ l1 := (List.mem_filter.mp hmem2).1
  exact hfix e hmem1 hename

theorem insertMany_post (k : SVKind) :
    ∀ (nvs l : List SensorValue),
      nodupStr (l.map SensorValue.name) = true →
      (∀ e ∈ l, e.kind = k) →
      (∀ nv ∈ nvs, canonical nv = true ∧ nv.kind = k) →
      nodupStr (((insertMany l nvs).1).map SensorValue.name) = true ∧
      (∀ e ∈ (insertMany l nvs).1, e.kind = k) ∧
      (∀ m, (nvs.map SensorValue.name).contains m = false →
        filterName m (insertMany l nvs).1 = filterName m l)
  | [], l => by
    intro hnd hkinds _
    exact ⟨hnd, hkinds, fun m _ => rfl⟩
  | nv :: rest, l => by
    intro hnd hkinds hnvs
    obtain ⟨hcan, hnk⟩ := hnvs nv (by simp)
    have hpost := insert_post l nv k hnd hkinds hcan hnk
    obtain ⟨hnd1, hkinds1, _, hfilter1, _⟩ := hpost
    have hrest := insertMany_post k rest (insertOrUpdateValue l nv.name nv).1
      hnd1 hkinds1 (fun x hx => hnvs x (by simp [hx]))
    obtain ⟨hnd2, hkinds2, hfilter2⟩ := hrest
    simp only [insertMany]
    refine ⟨hnd2, hkinds2, ?_⟩
    intro m hm
    simp only [List.map_cons, List.contains_cons, Bool.or_eq_false_iff,
      beq_eq_false_iff_ne] at hm
    obtain ⟨hmne, hmrest⟩ := hm
    rw [hfilter2 m (by simpa using hmrest)]
    exact hfilter1 m hmne

theorem insertMany_idem (k : SVKind) :
    ∀ (nvs l : List SensorValue),
      nodupStr (l.map SensorValue.name) = true →
      (∀ e ∈ l, e.kind = k) →
      (∀ nv ∈ nvs, canonical nv = true ∧ nv.kind = k) →
      nodupStr (nvs.map SensorValue.name) = true →
      insertMany (insertMany l nvs).1 nvs = ((insertMany l nvs).1, [])
  | [], l => by
    intro _ _ _ _
    rfl
  | nv :: rest, l => by
    intro hnd hkinds hnvs hnvnd
    obtain ⟨hcan, hnk⟩ := hnvs nv (by simp)
    simp only [List.map_cons, nodupStr, Bool.and_eq_true, Bool.not_eq_true'] at hnvnd
    obtain ⟨hnvname, hndrest⟩ := hnvnd
    have hpost := insert_post l nv k hnd hkinds hcan hnk
    obtain ⟨hnd1, hkinds1, hfix1, _, hcont1⟩ := hpost
    have hrestpost := insertMany_post k rest (insertOrUpdateValue l nv.name nv).1
      hnd1 hkinds1 (fun x hx => hnvs x (by simp [hx]))
    obtain ⟨hnd2, hkinds2, hfilter2⟩ := hrestpost
    have hfilter2nv := hfilter2 nv.name hnvname
    have hfix2 : FixedAt nv.name nv
        (insertMany (insertOrUpdateValue l nv.name nv).1 rest).1 :=
      FixedAt_of_filter nv.name nv _ _ hfilter2nv hfix1
    have hcont2 : (((insertMany (insertOrUpdateValue l nv.name nv).1 rest).1).map
        SensorValue.name).contains nv.name = true := by
      rw [contains_names_eq_filter, hfilter2nv, ← contains_names_eq_filter]
      exact hcont1
    obtain ⟨e, hfixed⟩ := insert_fixed _ nv hnd2 hcont2 hfix2
    have hih := insertMany_idem k rest (insertOrUpdateValue l nv.name nv).1
      hnd1 hkinds1 (fun x hx => hnvs x (by simp [hx])) hndrest
    have hL : (insertMany l (nv :: rest)).1 =
        (insertMany (insertOrUpdateValue l nv.name nv).1 rest).1 := by
      simp only [insertMany]
    rw [hL]
    simp only [insertMany]
    simp [hfixed, hih]

theorem parse_ok_canonical (dps : String) (c : List Nat) (nv : SensorValue)
    (h : parseAlarmFromBytes dps c = Except.ok nv) :
    canonical nv = true ∧ nv.kind = SVKind.alarmK := by
  unfold parseAlarmFromBytes at h
  by_cases h17 : dps = "17"
  · rw [if_pos h17] at h
    by_cases hb4 : c.getD 0 0 = 4
    · rw [if_pos hb4] at h
      injection h with h
      subst h
      exact ⟨rfl, rfl⟩
    · rw [if_neg hb4] at h
      by_cases hb5 : c.getD 0 0 = 5
      · rw [if_pos hb5] at h
        injection h with h
        subst h
        exact ⟨rfl, rfl⟩
      · rw [if_neg hb5] at h
        exact absurd h (by simp)
  · rw [if_neg h17] at h
    by_cases h18 : dps = "18"
    · rw [if_pos h18] at h
      by_cases hb1 : c.getD 0 0 = 1
      · rw [if_pos hb1] at h
        injection h with h
        subst h
        exact ⟨rfl, rfl⟩
      · rw [if_neg hb1] at h
        by_cases hb3 : c.getD 0 0 = 3
        · rw [if_pos hb3] at h
          injection h with h
          subst h
          exact ⟨rfl, rfl⟩
        · rw [if_neg hb3] at h
          by_cases hb4 : c.getD 0 0 = 4
          · rw [if_pos hb4] at h
            injection h with h
            subst h
            exact ⟨rfl, rfl⟩
          · rw [if_neg hb4] at h
            exact absurd h (by simp)
    · rw [if_neg h18] at h
      exact absurd h (by simp)

theorem parseAll_alarmLoop (dps : String) :
    ∀ (data : List Nat) (l nvs : List SensorValue),
      parseAll dps data = some nvs →
      alarmLoop dps l data = ((insertMany l nvs).1, Except.ok (insertMany l nvs).2)
  | [], l, nvs => by
    intro h
    simp only [parseAll, Option.some.injEq] at h
    subst h
    rfl
  | b0 :: b1 :: b2 :: b3 :: rest, l, nvs => by
    intro h
    simp only [parseAll] at h
    cases hp : parseAlarmFromBytes dps [b0, b1, b2, b3] with
    | error e =>
      rw [hp] at h
      simp at h
    | ok nv =>
      rw [hp] at h
      cases hrest : parseAll dps rest with
      | none =>
        rw [hrest] at h
        simp at h
      | some nvrest =>
        rw [hrest] at h
        have h2 : nvs = nv :: nvrest := by
          simpa using h.symm
        subst h2
        simp only [alarmLoop, hp]
        rw [parseAll_alarmLoop dps rest (insertOrUpdateValue l nv.name nv).1 nvrest hrest]
        simp only [insertMany, Except.map]
  | [b0], l, nvs => by
    intro h
    simp [parseAll] at h
  | [b0, b1], l, nvs => by
    intro h
    simp [parseAll] at h
  | [b0, b1, b2], l, nvs => by
    intro h
    simp [parseAll] at h

theorem alarmLoop_ok_parseAll (dps : String) :
    ∀ (data : List Nat) (l l2 : List SensorValue) (ch : List SensorValue),
      alarmLoop dps l data = (l2, Except.ok ch) →
      ∃ nvs, parseAll dps data = some nvs
  | [], _, _, _ => by
    intro _
    exact ⟨[], rfl⟩
  | b0 :: b1 :: b2 :: b3 :: rest, l, l2, ch => by
    intro h
    simp only [alarmLoop] at h
    cases hp : parseAlarmFromBytes dps [b0, b1, b2, b3] with
    | error e =>
      rw [hp] at h
      simp at h
    | ok nv =>
      rw [hp] at h
      have h2 := congrArg Prod.snd h
      simp only [] at h2
      cases hloop : (alarmLoop dps (insertOrUpdateValue l nv.name nv).1 rest).2 with
      | error e =>
        rw [hloop] at h2
        simp [Except.map] at h2
      | ok chr =>
        obtain ⟨nvs, hall⟩ := alarmLoop_ok_parseAll dps rest
          (insertOrUpdateValue l nv.name nv).1
          (alarmLoop dps (insertOrUpdateValue l nv.name nv).1 rest).1 chr
          (by rw [← hloop])
        refine ⟨nv :: nvs, ?_⟩
        simp [parseAll, hp, hall]
  | [b0], l, l2, ch => by
    intro h
    simp [alarmLoop] at h
  | [b0, b1], l, l2, ch => by
    intro h
    simp [alarmLoop] at h
  | [b0, b1, b2], l, l2, ch => by
    intro h
    simp [alarmLoop] at h

theorem parseAll_names (dps : String) :
    ∀ (data : List Nat) (nvs : List SensorValue),
      parseAll dps data = some nvs →
      nvs.map SensorValue.name = alarmRecordNames dps data
  | [], nvs => by
    intro h
    simp only [parseAll, Option.some.injEq] at h
    subst h
    rfl
  | b0 :: b1 :: b2 :: b3 :: rest, nvs => by
    intro h
    simp only [parseAll] at h
    cases hp : parseAlarmFromBytes dps [b0, b1, b2, b3] with
    | error e =>
      rw [hp] at h
      simp at h
    | ok nv =>
      rw [hp] at h
      cases hrest : parseAll dps rest with
      | none =>
        rw [hrest] at h
        simp at h
      | some nvrest =>
        rw [hrest] at h
        have h2 : nvs = nv :: nvrest := by
          simpa using h.symm
        subst h2
        simp only [List.map_cons, alarmRecordNames, records4, List.filterMap_cons, hp]
        have hih := parseAll_names dps rest nvrest hrest
        simp only [alarmRecordNames] at hih
        rw [hih]
  | [b0], nvs => by
    intro h
    simp [parseAll] at h
  | [b0, b1], nvs => by
    intro h
    simp [parseAll] at h
  | [b0, b1, b2], nvs => by
    intro h
    simp [parseAll] at h

theorem parseAll_mem (dps : String) :
    ∀ (data : List Nat) (nvs : List SensorValue), parseAll dps data = some nvs →
      ∀ nv ∈ nvs, ∃ c, parseAlarmFromBytes dps c = Except.ok nv
  | [], nvs => by
    intro h nv hm
    simp only [parseAll, Option.some.injEq] at h
    subst h
    simp at hm
  | b0 :: b1 :: b2 :: b3 :: rest, nvs => by
    intro h nv hm
    simp only [parseAll] at h
    cases hp : parseAlarmFromBytes dps [b0, b1, b2, b3] with
    | error e =>
      rw [hp] at h
      simp at h
    | ok nv0 =>
      rw [hp] at h
      cases hrest : parseAll dps rest with
      | none =>
        rw [hrest] at h
        simp at h
      | some nvrest =>
        rw [hrest] at h
        have h2 : nvs = nv0 :: nvrest := by
          simpa using h.symm
        subst h2
        rcases List.mem_cons.mp hm with hm | hm
        · subst hm
          exact ⟨[b0, b1, b2, b3], hp⟩
        · exact parseAll_mem dps rest nvrest hrest nv hm
  | [b0], nvs => by
    intro h
    simp [parseAll] at h
  | [b0, b1], nvs => by
    intro h
    simp [parseAll] at h
  | [b0, b1, b2], nvs => by
    intro h
    simp [parseAll] at h

theorem mkFloat_name (n : String) (q : ℚ) : (mkFloat n q).name = n := rfl

theorem canonical_mkFloat (n : String) (q : ℚ) : canonical (mkFloat n q) = true := rfl

theorem groupOKb_parts (k : SVKind) (g : SensorGroup) (h : groupOKb k g = true) :
    nodupStr (g.sensors.map SensorValue.name) = true ∧ ∀ e ∈ g.sensors, e.kind = k := by
  simp only [groupOKb, Bool.and_eq_true, List.all_eq_true, beq_iff_eq] at h
  exact ⟨h.1, h.2⟩

theorem alarm_update_again (g g1 : SensorGroup) (ts : Int) (data : List Nat)
    (ch : List SensorValue)
    (hOK : groupOKb SVKind.alarmK g = true)
    (hnames : nodupStr (alarmRecordNames g.dps data) = true)
    (hupd : alarmUpdate g ts data = (g1, Except.ok (some ch))) :
    ∀ ts2 : Int, alarmUpdate g1 ts2 data =
      ({ g1 with timestamp := ts2 }, Except.ok (some [])) := by
  intro ts2
  obtain ⟨hnd, hkinds⟩ := groupOKb_parts SVKind.alarmK g hOK
  simp only [alarmUpdate] at hupd
  by_cases hlen : data.length < 1
  · rw [if_pos hlen] at hupd
    simp at hupd
  rw [if_neg hlen] at hupd
  by_cases hmod : data.length % 4 ≠ 0
  · rw [if_pos hmod] at hupd
    simp at hupd
  rw [if_neg hmod] at hupd
  cases hloop : alarmLoop g.dps g.sensors data with
  | mk l1 r2 =>
    rw [hloop] at hupd
    cases r2 with
    | error e =>
      simp [Except.map] at hupd
    | ok chh =>
      simp only [Except.map] at hupd
      obtain ⟨hg1, hch⟩ := Prod.mk.injEq .. ▸ hupd
      obtain ⟨nvs, hall⟩ := alarmLoop_ok_parseAll g.dps data g.sensors l1 chh
        (by rw [hloop])
      have hcorr := parseAll_alarmLoop g.dps data g.sensors nvs hall
      rw [hloop] at hcorr
      have hl1 : l1 = (insertMany g.sensors nvs).1 :=
        congrArg Prod.fst hcorr
      have hnvsOK : ∀ nv ∈ nvs, canonical nv = true ∧ nv.kind = SVKind.alarmK := by
        intro nv hm
        obtain ⟨c, hc⟩ := parseAll_mem g.dps data nvs hall nv hm
        exact parse_ok_canonical g.dps c nv hc
      have hnvnd : nodupStr (nvs.map SensorValue.name) = true := by
        rw [parseAll_names g.dps data nvs hall]
        exact hnames
      have hidem := insertMany_idem SVKind.alarmK nvs g.sensors hnd hkinds hnvsOK hnvnd
      subst hg1
      simp only [alarmUpdate]
      rw [if_neg hlen, if_neg hmod]
      have hloop2 := parseAll_alarmLoop g.dps data l1 nvs hall
      rw [hl1, hidem] at hloop2
      dsimp only at hloop2
      rw [hl1, hloop2]
      simp [Except.map]

theorem phase_as_insertMany (g : SensorGroup) (ts : Int) (data : List Nat)
    (h1 : ¬ data.length < 1) (h2 : ¬ data.length % 8 ≠ 0) :
    phaseUpdate g ts data =
      ({ g with
          timestamp := ts,
          last_state := data,
          sensors := (insertMany g.sensors (phaseNVs data)).1 },
        Except.ok (some (insertMany g.sensors (phaseNVs data)).2)) := by
  simp only [phaseUpdate]
  rw [if_neg h1, if_neg h2]
  simp only [phaseNVs, insertMany, mkFloat_name]
  simp

theorem phase_update_again (g g1 : SensorGroup) (ts : Int) (data : List Nat)
    (ch : List SensorValue)
    (hOK : groupOKb SVKind.floatK g = true)
    (hupd : phaseUpdate g ts data = (g1, Except.ok (some ch))) :
    ∀ ts2 : Int, phaseUpdate g1 ts2 data =
      ({ g1 with timestamp := ts2 }, Except.ok (some [])) := by
  intro ts2
  obtain ⟨hnd, hkinds⟩ := groupOKb_parts SVKind.floatK g hOK
  by_cases hlen : data.length < 1
  · simp only [phaseUpdate] at hupd
    rw [if_pos hlen] at hupd
    simp at hupd
  by_cases hmod : data.length % 8 ≠ 0
  · simp only [phaseUpdate] at hupd
    rw [if_neg hlen, if_pos hmod] at hupd
    simp at hupd
  rw [phase_as_insertMany g ts data hlen hmod] at hupd
  obtain ⟨hg1, hch⟩ := Prod.mk.injEq .. ▸ hupd
  have hnvsOK : ∀ nv ∈ phaseNVs data, canonical nv = true ∧ nv.kind = SVKind.floatK := by
    intro nv hm
    simp only [phaseNVs, List.mem_cons, List.not_mem_nil, or_false] at hm
    rcases hm with hm | hm | hm <;> subst hm <;> exact ⟨rfl, rfl⟩
  have hnvnd : nodupStr ((phaseNVs data).map SensorValue.name) = true := by
    simp [phaseNVs, mkFloat_name, nodupStr]
  have hidem := insertMany_idem SVKind.floatK (phaseNVs data) g.sensors
    hnd hkinds hnvsOK hnvnd
  subst hg1
  rw [phase_as_insertMany _ ts2 data hlen hmod]
  have hsens : ({ g with
      timestamp := ts,
      last_state := data,
      sensors := (insertMany g.sensors (phaseNVs data)).1 } : SensorGroup).sensors =
      (insertMany g.sensors (phaseNVs data)).1 := rfl
  rw [hsens, hidem]

theorem applySensor_phase_again (g g1 : SensorGroup) (ts ts2 : Int) (v : Option DpVal)
    (cs : List SensorValue) (hOK : groupOKb SVKind.floatK g = true)
    (h : applySensorDp phaseUpdate g ts v = Except.ok (g1, cs)) :
    ∃ g2, applySensorDp phaseUpdate g1 ts2 v = Except.ok (g2, []) := by
  cases v with
  | none =>
    simp only [applySensorDp, Except.ok.injEq, Prod.mk.injEq] at h
    obtain ⟨hg, -⟩ := h
    subst hg
    exact ⟨g, rfl⟩
  | some dv =>
    cases dv with
    | raw o =>
      simp [applySensorDp] at h
    | bin bs =>
      simp only [applySensorDp] at h
      cases hr : (phaseUpdate g ts bs).2 with
      | error e =>
        rw [hr] at h
        simp at h
      | ok o =>
        cases o with
        | none =>
          rw [hr] at h
          simp at h
        | some ch =>
          rw [hr] at h
          simp only [Except.ok.injEq, Prod.mk.injEq] at h
          obtain ⟨hg, -⟩ := h
          have hfull : phaseUpdate g ts bs =
              ((phaseUpdate g ts bs).1, Except.ok (some ch)) := by
            rw [← hr]
          have hnext := phase_update_again g (phaseUpdate g ts bs).1 ts bs ch hOK hfull ts2
          subst hg
          refine ⟨{ (phaseUpdate g ts bs).1 with timestamp := ts2 }, ?_⟩
          simp only [applySensorDp, hnext]

theorem applySensor_alarm_again (g g1 : SensorGroup) (ts ts2 : Int) (v : Option DpVal)
    (cs : List SensorValue) (hOK : groupOKb SVKind.alarmK g = true)
    (hnm : ∀ bs, v = some (DpVal.bin bs) → nodupStr (alarmRecordNames g.dps bs) = true)
    (h : applySensorDp alarmUpdate g ts v = Except.ok (g1, cs)) :
    ∃ g2, applySensorDp alarmUpdate g1 ts2 v = Except.ok (g2, []) := by
  cases v with
  | none =>
    simp only [applySensorDp, Except.ok.injEq, Prod.mk.injEq] at h
    obtain ⟨hg, -⟩ := h
    subst hg
    exact ⟨g, rfl⟩
  | some dv =>
    cases dv with
    | raw o =>
      simp [applySensorDp] at h
    | bin bs =>
      simp only [applySensorDp] at h
      cases hr : (alarmUpdate g ts bs).2 with
      | error e =>
        rw [hr] at h
        simp at h
      | ok o =>
        cases o with
        | none =>
          rw [hr] at h
          simp at h
        | some ch =>
          rw [hr] at h
          simp only [Except.ok.injEq, Prod.mk.injEq] at h
          obtain ⟨hg, -⟩ := h
          have hfull : alarmUpdate g ts bs =
              ((alarmUpdate g ts bs).1, Except.ok (some ch)) := by
            rw [← hr]
          have hnext := alarm_update_again g (alarmUpdate g ts bs).1 ts bs ch hOK
            (hnm bs rfl) hfull ts2
          subst hg
          refine ⟨{ (alarmUpdate g ts bs).1 with timestamp := ts2 }, ?_⟩
          simp only [applySensorDp, hnext]

theorem raw_prefix_ne (s : String) : "raw_" ++ s ≠ s := by
  intro h
  have hlen := congrArg String.length h
  rw [String.length_append] at hlen
  have h4 : "raw_".length = 4 := by decide
  omega

theorem registry_names_disjoint :
    ∀ p1 ∈ dps_data, ∀ p2 ∈ dps_data, p1.1 ≠ p2.1 →
      p1.2.name ≠ checknameFd p2.2 ∧ p1.2.name ≠ p2.2.name ∧
      checknameFd p1.2 ≠ checknameFd p2.2 ∧ checknameFd p1.2 ≠ p2.2.name := by
  decide

theorem processScalar_untouched (attrs : String → PyObj) (fd : FieldData) (v : DpVal)
    (attrsA : String → PyObj) (chA : List String)
    (hp : processScalar attrs fd v = Except.ok (attrsA, chA))
    (a : String) (h1 : a ≠ checknameFd fd) (h2 : a ≠ fd.name) :
    attrsA a = attrs a := by
  cases v with
  | bin bs =>
    simp [processScalar] at hp
  | raw o =>
    simp only [processScalar] at hp
    by_cases hc : pyEq (attrs (checknameFd fd)) o = true
    · rw [if_pos hc] at hp
      simp only [Except.ok.injEq, Prod.mk.injEq] at hp
      rw [← hp.1]
    · rw [if_neg hc] at hp
      cases hdec : applyDecodeKind fd.decode o with
      | error e =>
        simp only [hdec] at hp
        simp at hp
      | ok o2 =>
        simp only [hdec] at hp
        cases hsc : applyScale fd.scale o2 with
        | error e =>
          simp only [hsc] at hp
          simp at hp
        | ok o3 =>
          simp only [hsc] at hp
          simp only [Except.ok.injEq, Prod.mk.injEq] at hp
          rw [← hp.1]
          simp only [if_neg h2, if_neg h1]

theorem processScalar_stores (attrs : String → PyObj) (fd : FieldData) (v : DpVal)
    (attrsA : String → PyObj) (chA : List String)
    (hp : processScalar attrs fd v = Except.ok (attrsA, chA)) :
    ∃ o, v = DpVal.raw o ∧ pyEq (attrsA (checknameFd fd)) o = true := by
  cases v with
  | bin bs =>
    simp [processScalar] at hp
  | raw o =>
    refine ⟨o, rfl, ?_⟩
    simp only [processScalar] at hp
    by_cases hc : pyEq (attrs (checknameFd fd)) o = true
    · rw [if_pos hc] at hp
      simp only [Except.ok.injEq, Prod.mk.injEq] at hp
      rw [← hp.1]
      exact hc
    · rw [if_neg hc] at hp
      cases hdec : applyDecodeKind fd.decode o with
      | error e =>
        simp only [hdec] at hp
        simp at hp
      | ok o2 =>
        simp only [hdec] at hp
        cases hsc : applyScale fd.scale o2 with
        | error e =>
          simp only [hsc] at hp
          simp at hp
        | ok o3 =>
          simp only [hsc] at hp
          simp only [Except.ok.injEq, Prod.mk.injEq] at hp
          rw [← hp.1]
          by_cases hcr : checkRawFd fd = true
      -- raw-shadow attribute distinct from the semantic name
          · have hne : checknameFd fd ≠ fd.name := by
              simp only [checknameFd, if_pos hcr]
              exact raw_prefix_ne fd.name
            simp only [if_neg hne, if_pos (rfl : checknameFd fd = checknameFd fd)]
            exact pyEq_refl o
          · have hcrf : checkRawFd fd = false := by
              simpa using hcr
            simp only [checkRawFd, Bool.or_eq_false_iff] at hcrf
            obtain ⟨hs1, hd1⟩ := hcrf
            have hnone : fd.scale = Option.none ∧ fd.decode = Option.none :=
              ⟨Option.not_isSome_iff_eq_none.mp (by simp [hs1]),
                Option.not_isSome_iff_eq_none.mp (by simp [hd1])⟩
          -- no decode/scale: the stored decoded value is the raw value
            rw [hnone.2] at hdec
            rw [hnone.1] at hsc
            simp only [applyDecodeKind, Except.ok.injEq] at hdec
            simp only [applyScale, Except.ok.injEq] at hsc
            have hck : checknameFd fd = fd.name := by
              simp only [checknameFd]
              rw [if_neg hcr]
            rw [hck]
            simp only [if_pos (rfl : fd.name = fd.name)]
            rw [← hsc, ← hdec]
            exact pyEq_refl o

theorem checkname_not_in_writeNames :
    ∀ (rest : List (String × DpVal)) (k0 : String) (fd0 : FieldData),
      assocLookup dps_data k0 = some fd0 →
      (rest.map Prod.fst).contains k0 = false →
      ¬ checknameFd fd0 ∈ writeNames rest
  | [], k0, fd0 => by
    intro _ _ h
    simp [writeNames] at h
  | (k1, v1) :: rest, k0, fd0 => by
    intro hl0 hc h
    simp only [List.map_cons, List.contains_cons, Bool.or_eq_false_iff,
      beq_eq_false_iff_ne] at hc
    obtain ⟨hne, hcrest⟩ := hc
    simp only [writeNames, List.mem_append] at h
    rcases h with h | h
    · simp only [entryWrites] at h
      cases hl1 : assocLookup dps_data k1 with
      | none =>
        rw [hl1] at h
        simp at h
      | some fd1 =>
        rw [hl1] at h
        have hdisj := registry_names_disjoint (k0, fd0) (assocLookup_mem _ _ _ hl0)
          (k1, fd1) (assocLookup_mem _ _ _ hl1) (by simpa using hne)
        simp only [List.mem_cons, List.mem_singleton, List.not_mem_nil, or_false] at h
        rcases h with h | h
        · exact hdisj.2.2.1 h
        · exact hdisj.2.2.2 h
    · exact checkname_not_in_writeNames rest k0 fd0 hl0 (by simpa using hcrest) h

theorem applyScalars_untouched :
    ∀ (entries : List (String × DpVal)) (attrs attrs2 : String → PyObj)
      (ch : List String),
      applyScalars attrs entries = Except.ok (attrs2, ch) →
      ∀ a, ¬ a ∈ writeNames entries → attrs2 a = attrs a
  | [], attrs, attrs2, ch => by
    intro h a _
    simp only [applyScalars, Except.ok.injEq, Prod.mk.injEq] at h
    rw [← h.1]
  | (k, v) :: rest, attrs, attrs2, ch => by
    intro h a ha
    simp only [writeNames, List.mem_append] at ha
    push_neg at ha
    obtain ⟨ha1, ha2⟩ := ha
    simp only [applyScalars] at h
    cases hl : assocLookup dps_data k with
    | none =>
      simp only [hl] at h
      exact applyScalars_untouched rest attrs attrs2 ch h a ha2
    | some fd =>
      simp only [hl] at h
      cases hp : processScalar attrs fd v with
      | error e =>
        simp [hp] at h
      | ok pr =>
        obtain ⟨attrsA, chA⟩ := pr
        simp only [hp] at h
        cases hrest : applyScalars attrsA rest with
        | error e =>
          simp [hrest] at h
        | ok pr2 =>
          obtain ⟨attrs3, ch3⟩ := pr2
          simp only [hrest, Except.ok.injEq, Prod.mk.injEq] at h
          obtain ⟨h31, -⟩ := h
          subst h31
          have hins : a ∉ entryWrites k := by
            simpa [entryWrites, hl] using ha1
          simp only [entryWrites, hl, List.mem_cons, List.mem_singleton,
            List.not_mem_nil, or_false] at hins
          push_neg at hins
          rw [applyScalars_untouched rest attrsA attrs3 ch3 hrest a ha2]
          exact processScalar_untouched attrs fd v attrsA chA hp a hins.1 hins.2

theorem applyScalars_pyEq :
    ∀ (entries : List (String × DpVal)) (attrs attrs2 : String → PyObj)
      (ch : List String),
      nodupStr (entries.map Prod.fst) = true →
      applyScalars attrs entries = Except.ok (attrs2, ch) →
      ∀ k v fd, (k, v) ∈ entries → assocLookup dps_data k = some fd →
        ∃ o, v = DpVal.raw o ∧ pyEq (attrs2 (checknameFd fd)) o = true
  | [], attrs, attrs2, ch => by
    intro _ _ k v fd hm
    simp at hm
  | (k0, v0) :: rest, attrs, attrs2, ch => by
    intro hnd h k v fd hm hlk
    simp only [List.map_cons, nodupStr, Bool.and_eq_true, Bool.not_eq_true'] at hnd
    obtain ⟨hk0notin, hndrest⟩ := hnd
    simp only [applyScalars] at h
    cases hl : assocLookup dps_data k0 with
    | none =>
      simp only [hl] at h
      rcases List.mem_cons.mp hm with hm | hm
      · obtain ⟨hk, hv⟩ := Prod.mk.injEq .. ▸ hm
        subst hk
        rw [hlk] at hl
        simp at hl
      · exact applyScalars_pyEq rest attrs attrs2 ch hndrest h k v fd hm hlk
    | some fd0 =>
      simp only [hl] at h
      cases hp : processScalar attrs fd0 v0 with
      | error e =>
        simp [hp] at h
      | ok pr =>
        obtain ⟨attrsA, chA⟩ := pr
        simp only [hp] at h
        cases hrest : applyScalars attrsA rest with
        | error e =>
          simp [hrest] at h
        | ok pr2 =>
          obtain ⟨attrs3, ch3⟩ := pr2
          simp only [hrest, Except.ok.injEq, Prod.mk.injEq] at h
          obtain ⟨h31, -⟩ := h
          subst h31
          rcases List.mem_cons.mp hm with hm | hm
          · obtain ⟨hk, hv⟩ := Prod.mk.injEq .. ▸ hm
            subst hk
            subst hv
            rw [hlk] at hl
            have hfd : fd0 = fd := by
              have := hl
              simp only [Option.some.injEq] at this
              exact this.symm
            subst hfd
            obtain ⟨o, hvo, hpyeq⟩ := processScalar_stores attrs fd0 v attrsA chA hp
            refine ⟨o, hvo, ?_⟩
            rw [applyScalars_untouched rest attrsA attrs3 ch3 hrest
              (checknameFd fd0)
              (checkname_not_in_writeNames rest k fd0 hlk hk0notin)]
            exact hpyeq
          · exact applyScalars_pyEq rest attrsA attrs3 ch3 hndrest hrest k v fd hm hlk

theorem applyScalars_skip :
    ∀ (entries : List (String × DpVal)) (attrs : String → PyObj),
      (∀ k v, (k, v) ∈ entries → ∀ fd, assocLookup dps_data k = some fd →
        ∃ o, v = DpVal.raw o ∧ pyEq (attrs (checknameFd fd)) o = true) →
      applyScalars attrs entries = Except.ok (attrs, [])
  | [], attrs => by
    intro _
    rfl
  | (k0, v0) :: rest, attrs => by
    intro hall
    simp only [applyScalars]
    cases hl : assocLookup dps_data k0 with
    | none =>
      exact applyScalars_skip rest attrs (fun k v hm fd hlk => hall k v (by simp [hm]) fd hlk)
    | some fd0 =>
      obtain ⟨o, hvo, hpyeq⟩ := hall k0 v0 (by simp) fd0 hl
      subst hvo
      simp only [processScalar, if_pos hpyeq]
      rw [applyScalars_skip rest attrs
        (fun k v hm fd hlk => hall k v (by simp [hm]) fd hlk)]
      rfl

/-- C5: amended idempotence.  For a well-formed device state (unique names and
homogeneous value classes in every group), a payload with distinct data-point
keys and at most one record per alarm name in each alarm payload, a successful
`_inspect_data` run followed by a second run of the identical payload reports
an empty `changed` list and an empty `changed_sensors` list the second time. -/
theorem C5_idempotent_amended (st st1 : DeviceState) (now now2 : Int)
    (t t2 : Option Int) (dps : List (String × DpVal))
    (c1 : List String) (s1 : List SensorValue)
    (hOK : deviceOKb st = true)
    (hnd : nodupStr (dps.map Prod.fst) = true)
    (hn17 : alarmNamesOKb dps "17" st.alarm1.dps = true)
    (hn18 : alarmNamesOKb dps "18" st.alarm2.dps = true)
    (h : inspectData st now t dps = Except.ok (st1, c1, s1)) :
    ∃ st2, inspectData st1 now2 t2 dps = Except.ok (st2, [], []) := by
  simp only [deviceOKb, Bool.and_eq_true] at hOK
  obtain ⟨⟨hOKp, hOK1⟩, hOK2⟩ := hOK
  simp only [inspectData] at h
  cases h6 : applySensorDp phaseUpdate st.phase (t.getD now) (assocLookup dps "6") with
  | error e =>
    simp [h6] at h
  | ok pr6 =>
    obtain ⟨ph, cs1⟩ := pr6
    simp only [h6] at h
    cases h17 : applySensorDp alarmUpdate st.alarm1 (t.getD now) (assocLookup dps "17") with
    | error e =>
      simp [h17] at h
    | ok pr17 =>
      obtain ⟨a1, cs2⟩ := pr17
      simp only [h17] at h
      cases h18 : applySensorDp alarmUpdate st.alarm2 (t.getD now) (assocLookup dps "18") with
      | error e =>
        simp [h18] at h
      | ok pr18 =>
        obtain ⟨a2, cs3⟩ := pr18
        simp only [h18] at h
        cases hsc : applyScalars st.attrs dps with
        | error e =>
          simp [hsc] at h
        | ok prs =>
          obtain ⟨attrs2, ch⟩ := prs
          simp only [hsc, Except.ok.injEq, Prod.mk.injEq] at h
          obtain ⟨hst1, -, -⟩ := h
          obtain ⟨g2p, hp2⟩ :=
            applySensor_phase_again st.phase ph (t.getD now) (t2.getD now2)
              (assocLookup dps "6") cs1 hOKp h6
          obtain ⟨g2a1, ha12⟩ :=
            applySensor_alarm_again st.alarm1 a1 (t.getD now) (t2.getD now2)
              (assocLookup dps "17") cs2 hOK1
              (fun bs hbs => by
                simp only [alarmNamesOKb, hbs] at hn17
                exact hn17) h17
          obtain ⟨g2a2, ha22⟩ :=
            applySensor_alarm_again st.alarm2 a2 (t.getD now) (t2.getD now2)
              (assocLookup dps "18") cs3 hOK2
              (fun bs hbs => by
                simp only [alarmNamesOKb, hbs] at hn18
                exact hn18) h18
          have hskip : applyScalars attrs2 dps = Except.ok (attrs2, []) :=
            applyScalars_skip dps attrs2
              (fun k v hm fd hlk =>
                applyScalars_pyEq dps st.attrs attrs2 ch hnd hsc k v fd hm hlk)
          subst hst1
          refine ⟨⟨attrs2, g2p, g2a1, g2a2⟩, ?_⟩
          simp only [inspectData, hp2, ha12, ha22, hskip, List.append_nil,
            List.nil_append]

theorem C5_witness :
    ∃ st2, inspectData c5St1 1 Option.none c5Payload = Except.ok (st2, [], []) :=
  C5_idempotent_amended freshDevice c5St1 0 1 Option.none Option.none c5Payload
    c5C1 c5S1 (by decide) (by decide) (by decide) (by decide) rfl
